import Mathlib

/-!
Verification development for the ns16550 UART driver
(xen/drivers/char/ns16550.c), shallowly embedded in Lean.

Modelling conventions:
* The build configuration assumed throughout is the x86 one: HAS_IOPORTS and
  HAS_PCI are defined, HAS_DEVICE_TREE / CONFIG_ARM code is not compiled.
* C `int` fields are modelled as `Int`; C truncating division is `Int.tdiv`;
  conversion to an 8/16/32-bit unsigned quantity is `% 256`, `% 65536`,
  `Int.emod _ (2^32)` and so on at the points where the C code performs it.
* The UART register bank sits on the far side of the bus, outside the
  program.  It is modelled as a response script: every bus read consumes the
  next scripted byte, and every transaction is logged.  Quantifying over
  scripts quantifies over all possible (deterministic) register banks.
* PCI configuration space is a separate state, modelled per function with
  BAR write-masking semantics (a config write to a BAR stores
  `(v &&& mask) ||| hardwired`), which is what makes BAR sizing observable.
-/

/-- Register offsets from xen/include/xen/8250-uart.h (receive buffer). -/
def UART_RBR : Nat := 0x00

/-- Transmit holding register offset. -/
def UART_THR : Nat := 0x00

/-- Interrupt enable register offset. -/
def UART_IER : Nat := 0x01

/-- Interrupt identification register offset. -/
def UART_IIR : Nat := 0x02

/-- FIFO control register offset. -/
def UART_FCR : Nat := 0x02

/-- Line control register offset. -/
def UART_LCR : Nat := 0x03

/-- Modem control register offset. -/
def UART_MCR : Nat := 0x04

/-- Line status register offset. -/
def UART_LSR : Nat := 0x05

/-- Modem status register offset. -/
def UART_MSR : Nat := 0x06

/-- Divisor latch low byte offset (with DLAB set). -/
def UART_DLL : Nat := 0x00

/-- Divisor latch high byte offset (with DLAB set). -/
def UART_DLM : Nat := 0x01

/-- DesignWare status register offset. -/
def UART_USR : Nat := 0x1f

/-- IER bit: enable received-data-available interrupt. -/
def UART_IER_ERDAI : Int := 0x01

/-- IER bit: enable transmit-holding-register-empty interrupt. -/
def UART_IER_ETHREI : Int := 0x02

/-- IIR bit: no interrupt pending. -/
def UART_IIR_NOINT : Nat := 0x01

/-- IIR value: DesignWare busy-detect condition. -/
def UART_IIR_BSY : Nat := 0x07

/-- FCR bit: enable FIFOs. -/
def UART_FCR_ENABLE : Int := 0x01

/-- FCR bit: clear receive FIFO. -/
def UART_FCR_CLRX : Int := 0x02

/-- FCR bit: clear transmit FIFO. -/
def UART_FCR_CLTX : Int := 0x04

/-- FCR bits: 14-byte receive trigger threshold. -/
def UART_FCR_TRG14 : Int := 0xc0

/-- LCR bit: divisor latch access. -/
def UART_LCR_DLAB : Int := 0x80

/-- MCR bit: data terminal ready. -/
def UART_MCR_DTR : Int := 0x01

/-- MCR bit: request to send. -/
def UART_MCR_RTS : Int := 0x02

/-- MCR bit: master interrupt enable (OUT2). -/
def UART_MCR_OUT2 : Int := 0x08

/-- MCR bit: loopback mode. -/
def UART_MCR_LOOP : Int := 0x10

/-- LSR bit: data ready. -/
def UART_LSR_DR : Nat := 0x01

/-- LSR bit: transmit holding register empty. -/
def UART_LSR_THRE : Nat := 0x20

/-- LCR parity field value: no parity. -/
def UART_PARITY_NONE : Int := 0

/-- LCR parity field value: odd parity. -/
def UART_PARITY_ODD : Int := 0x08

/-- LCR parity field value: even parity. -/
def UART_PARITY_EVEN : Int := 0x18

/-- LCR parity field value: mark parity. -/
def UART_PARITY_MARK : Int := 0x28

/-- LCR parity field value: space parity. -/
def UART_PARITY_SPACE : Int := 0x38

/-- Sentinel baud value meaning auto-detect from the divisor latch. -/
def BAUD_AUTO : Int := -1

/-- Default reference clock, from xen/include/xen/8250-uart.h. -/
def UART_CLOCK_HZ : Int := 1843200

/-- Errno value for I/O errors. -/
def errno_eio : Int := 5

/-- PCI config space offset of the command register. -/
def PCI_COMMAND : Nat := 0x04

/-- PCI config space offset of the 16-bit class code. -/
def PCI_CLASS_DEVICE : Nat := 0x0a

/-- PCI config space offset of the header type byte. -/
def PCI_HEADER_TYPE : Nat := 0x0e

/-- PCI config space offset of the first base address register. -/
def PCI_BASE_ADDRESS_0 : Nat := 0x10

/-- PCI config space offset of a bridge's I/O base register. -/
def PCI_IO_BASE : Nat := 0x1c

/-- PCI config space offset of the interrupt line byte. -/
def PCI_INTERRUPT_LINE : Nat := 0x3c

/-- PCI config space offset of the interrupt pin byte. -/
def PCI_INTERRUPT_PIN : Nat := 0x3d

/-- BAR low bit marking an I/O-space BAR. -/
def PCI_BASE_ADDRESS_SPACE_IO : Nat := 0x01

/-- Command register bit enabling I/O space decoding. -/
def PCI_COMMAND_IO : Nat := 0x01

/-- One bus transaction issued by the register accessor. -/
inductive BusEv where
  | read (addr : Nat) (val : Nat)
  | write (addr : Nat) (val : Nat)
deriving DecidableEq, Repr

/-- The register bank as the driver sees it: a script of pending read
responses (each read consumes the head; an exhausted script responds 0)
plus a log of all transactions issued so far. -/
structure ScriptState where
  script : List Nat
  log : List BusEv
deriving DecidableEq, Repr

/-- The `struct ns16550` port descriptor, x86 configuration. -/
structure Ns16550 where
  baud : Int
  clock_hz : Int
  data_bits : Int
  parity : Int
  stop_bits : Int
  fifo_size : Int
  irq : Int
  io_base : Nat
  io_size : Nat
  reg_shift : Nat
  reg_width : Int
  remapped_io_base : Option Nat
  timeout_ms : Nat
  intr_works : Bool
  dw_usr_bsy : Bool
  pb_bdf : Nat × Nat × Nat
  ps_bdf : Nat × Nat × Nat
  pb_bdf_enable : Bool
  ps_bdf_enable : Bool
  bar : Nat
  cr : Nat
  bar_idx : Nat
deriving DecidableEq, Repr

/-- One PCI function's configuration header, restricted to the registers the
driver touches.  A BAR is a stored 32-bit value together with a writable-bit
mask and hardwired bits: a config write stores `(v &&& mask) ||| hard`,
which is how real BARs expose their size to the all-ones sizing write. -/
structure PciFn where
  header_type : Nat
  class_device : Nat
  bars : Nat → Nat
  barMask : Nat → Nat
  barHard : Nat → Nat
  intr_pin : Nat
  intr_line : Nat
  command : Nat
  io_base_reg : Nat

/-- PCI configuration space: every (bus, device, function) triple resolves
to a function header (absent functions are modelled by `absentFn`). -/
def PciBus := Nat → Nat → Nat → PciFn

/-- The all-ones header an absent PCI function presents on config reads. -/
def absentFn : PciFn where
  header_type := 0xffff
  class_device := 0xffff
  bars := fun _ => 0xffffffff
  barMask := fun _ => 0
  barHard := fun _ => 0xffffffff
  intr_pin := 0xff
  intr_line := 0xff
  command := 0xffff
  io_base_reg := 0

/-- 16-bit PCI config read, dispatching on the offsets the driver uses. -/
def pci_conf_read16 (p : PciBus) (b d f off : Nat) : Nat :=
  if off = PCI_CLASS_DEVICE then (p b d f).class_device % 65536
  else if off = PCI_HEADER_TYPE then (p b d f).header_type % 65536
  else if off = PCI_COMMAND then (p b d f).command % 65536
  else 0

/-- 8-bit PCI config read, dispatching on the offsets the driver uses. -/
def pci_conf_read8 (p : PciBus) (b d f off : Nat) : Nat :=
  if off = PCI_INTERRUPT_PIN then (p b d f).intr_pin % 256
  else if off = PCI_INTERRUPT_LINE then (p b d f).intr_line % 256
  else 0

/-- 32-bit PCI config read: BAR offsets return the stored BAR value. -/
def pci_conf_read32 (p : PciBus) (b d f off : Nat) : Nat :=
  if PCI_BASE_ADDRESS_0 ≤ off ∧ off < PCI_BASE_ADDRESS_0 + 24 ∧ (off - PCI_BASE_ADDRESS_0) % 4 = 0
  then (p b d f).bars ((off - PCI_BASE_ADDRESS_0) / 4) % 4294967296
  else 0

/-- Functional update of one PCI function. -/
def pciUpdate (p : PciBus) (b d f : Nat) (fn : PciFn) : PciBus :=
  fun b' d' f' => if b' = b ∧ d' = d ∧ f' = f then fn else p b' d' f'

/-- 32-bit PCI config write: a BAR write stores through the BAR's
write mask and hardwired bits; other offsets are ignored (the driver only
ever writes BARs with 32-bit width). -/
def pci_conf_write32 (p : PciBus) (b d f off v : Nat) : PciBus :=
  if PCI_BASE_ADDRESS_0 ≤ off ∧ off < PCI_BASE_ADDRESS_0 + 24 ∧ (off - PCI_BASE_ADDRESS_0) % 4 = 0
  then
    let i := (off - PCI_BASE_ADDRESS_0) / 4
    let fn := p b d f
    pciUpdate p b d f
      { fn with bars := fun j => if j = i then ((v % 4294967296) &&& fn.barMask i) ||| fn.barHard i else fn.bars j }
  else p

/-- 16-bit PCI config write, dispatching on the offsets the driver uses. -/
def pci_conf_write16 (p : PciBus) (b d f off v : Nat) : PciBus :=
  if off = PCI_COMMAND then pciUpdate p b d f { p b d f with command := v % 65536 }
  else if off = PCI_IO_BASE then pciUpdate p b d f { p b d f with io_base_reg := v % 65536 }
  else p

/-- Combined machine state: the descriptor, its register bank, and PCI
configuration space. -/
structure St where
  uart : Ns16550
  dev : ScriptState
  pci : PciBus

/-- ns_read_reg: with no remapped base the access is a port-I/O read at
io_base + reg; otherwise an MMIO access at remapped + (reg << reg_shift),
valid only for reg_width 1 or 4 - any other width returns the all-ones
byte without touching the bus.  The returned value is the C `char` the
function yields, as an unsigned byte. -/
def ns_read_reg (u : Ns16550) (s : ScriptState) (reg : Nat) : Nat × ScriptState :=
  match u.remapped_io_base with
  | none =>
      let v := s.script.headD 0 % 256
      (v, ⟨s.script.tail, s.log ++ [BusEv.read (u.io_base + reg) v]⟩)
  | some base =>
      if u.reg_width = 1 ∨ u.reg_width = 4 then
        let v := s.script.headD 0 % 256
        (v, ⟨s.script.tail, s.log ++ [BusEv.read (base + (reg <<< u.reg_shift)) v]⟩)
      else (0xff, s)

/-- ns_write_reg: port-I/O write without a remapped base, otherwise MMIO
write for reg_width 1 or 4, and a silent no-op for any other width. -/
def ns_write_reg (u : Ns16550) (s : ScriptState) (reg : Nat) (c : Int) : ScriptState :=
  let byte := (c.emod 256).toNat
  match u.remapped_io_base with
  | none => ⟨s.script, s.log ++ [BusEv.write (u.io_base + reg) byte]⟩
  | some base =>
      if u.reg_width = 1 ∨ u.reg_width = 4 then
        ⟨s.script, s.log ++ [BusEv.write (base + (reg <<< u.reg_shift)) byte]⟩
      else s

/-- ns16550_ioport_invalid: the hardware-vanished check, true when the IER
register reads back as the all-ones byte. -/
def ns16550_ioport_invalid (u : Ns16550) (s : ScriptState) : Bool × ScriptState :=
  let (v, s') := ns_read_reg u s UART_IER
  (v = 0xff, s')

/-- ns16550_tx_ready: -EIO when the hardware has vanished, else the FIFO
depth if the line-status register reports THRE, else 0. -/
def ns16550_tx_ready (u : Ns16550) (s : ScriptState) : Int × ScriptState :=
  let (inv, s1) := ns16550_ioport_invalid u s
  if inv then (-errno_eio, s1)
  else
    let (lsr, s2) := ns_read_reg u s1 UART_LSR
    (if lsr &&& UART_LSR_THRE ≠ 0 then u.fifo_size else 0, s2)

/-- ns16550_putc: unconditional single-byte write to the THR. -/
def ns16550_putc (u : Ns16550) (s : ScriptState) (c : Int) : ScriptState :=
  ns_write_reg u s UART_THR c

/-- ns16550_getc: none when the hardware has vanished or no data is ready,
otherwise one byte read from the receive buffer register. -/
def ns16550_getc (u : Ns16550) (s : ScriptState) : Option Nat × ScriptState :=
  let (inv, s1) := ns16550_ioport_invalid u s
  if inv then (none, s1)
  else
    let (lsr, s2) := ns_read_reg u s1 UART_LSR
    if lsr &&& UART_LSR_DR = 0 then (none, s2)
    else
      let (b, s3) := ns_read_reg u s2 UART_RBR
      (some b, s3)

/-- Result of one poll-timer invocation: number of receive callbacks
delivered, whether the transmit callback fired, the list of rearm timeouts
passed to set_timer, and the final register-bank state. -/
structure PollResult where
  rx : Nat
  tx : Bool
  rearms : List Nat
  dev : ScriptState
deriving DecidableEq, Repr

/-- The receive loop of __ns16550_poll: drains data-ready bytes, aborting
(second component true) when the hardware-vanished check trips.  The fuel
argument bounds the iteration count; none means the bound was hit before
the loop finished. -/
def ns16550_poll_rx_loop (u : Ns16550) : Nat → ScriptState → Option (Nat × ScriptState × Bool)
  | 0, _ => none
  | fuel + 1, s =>
      let (lsr, s1) := ns_read_reg u s UART_LSR
      if lsr &&& UART_LSR_DR = 0 then some (0, s1, false)
      else
        let (inv, s2) := ns16550_ioport_invalid u s1
        if inv then some (0, s2, true)
        else
          match ns16550_poll_rx_loop u fuel s2 with
          | none => none
          | some (n, s', ab) => some (n + 1, s', ab)

/-- __ns16550_poll: a no-op once intr_works holds; otherwise drain receive
bytes (goto out when the hardware vanishes, skipping the transmit check),
fire the transmit callback when THRE is set, and always rearm the poll
timer once at timeout_ms. -/
def __ns16550_poll (u : Ns16550) (fuel : Nat) (s : ScriptState) : Option PollResult :=
  if u.intr_works then some ⟨0, false, [], s⟩
  else
    match ns16550_poll_rx_loop u fuel s with
    | none => none
    | some (n, s1, aborted) =>
        if aborted then some ⟨n, false, [u.timeout_ms], s1⟩
        else
          let (lsr, s2) := ns_read_reg u s1 UART_LSR
          if lsr &&& UART_LSR_THRE ≠ 0 then some ⟨n, true, [u.timeout_ms], s2⟩
          else some ⟨n, false, [u.timeout_ms], s2⟩

/-- The drain loop of ns16550_interrupt: while the IIR reports a pending
cause, count transmit and receive callback deliveries. -/
def ns16550_intr_loop (u : Ns16550) : Nat → ScriptState → Option (Nat × Nat × ScriptState)
  | 0, _ => none
  | fuel + 1, s =>
      let (iir, s1) := ns_read_reg u s UART_IIR
      if iir &&& UART_IIR_NOINT ≠ 0 then some (0, 0, s1)
      else
        let (lsr, s2) := ns_read_reg u s1 UART_LSR
        let t := if lsr &&& UART_LSR_THRE ≠ 0 then 1 else 0
        let r := if lsr &&& UART_LSR_DR ≠ 0 then 1 else 0
        match ns16550_intr_loop u fuel s2 with
        | none => none
        | some (tx, rx, s') => some (tx + t, rx + r, s')

/-- ns16550_interrupt: latches intr_works, then drains all pending causes,
delivering transmit/receive callbacks per cause. -/
def ns16550_interrupt (u : Ns16550) (fuel : Nat) (s : ScriptState) :
    Ns16550 × Option (Nat × Nat × ScriptState) :=
  ({ u with intr_works := true }, ns16550_intr_loop u fuel s)

/-- Read one register, threading the combined state. -/
def St.rd (st : St) (reg : Nat) : Nat × St :=
  ((ns_read_reg st.uart st.dev reg).1, { st with dev := (ns_read_reg st.uart st.dev reg).2 })

/-- Write one register, threading the combined state. -/
def St.wr (st : St) (reg : Nat) (c : Int) : St :=
  { st with dev := ns_write_reg st.uart st.dev reg c }

/-- pci_serial_early_init: for a port-I/O PCI-attached card, program the
bridge window, the card's first BAR, and its command register. -/
def pci_serial_early_init (st : St) : St :=
  if ¬ st.uart.ps_bdf_enable ∨ st.uart.io_base ≥ 0x10000 then st
  else
    let u := st.uart
    let p :=
      if u.pb_bdf_enable then
        pci_conf_write16 st.pci u.pb_bdf.1 u.pb_bdf.2.1 u.pb_bdf.2.2 PCI_IO_BASE
          ((u.io_base &&& 0xF000) ||| ((u.io_base &&& 0xF000) >>> 8))
      else st.pci
    let p := pci_conf_write32 p u.ps_bdf.1 u.ps_bdf.2.1 u.ps_bdf.2.2 PCI_BASE_ADDRESS_0
      (u.io_base ||| PCI_BASE_ADDRESS_SPACE_IO)
    let p := pci_conf_write16 p u.ps_bdf.1 u.ps_bdf.2.1 u.ps_bdf.2.2 PCI_COMMAND PCI_COMMAND_IO
    { st with pci := p }

/-- The register programming of ns16550_setup_preirq after the early PCI
setup: line format, the baud divisor (or its read-back in auto mode),
DTR/RTS wedged high, FIFO enable/clear.  A C left shift by a constant is
written as multiplication. -/
def ns16550_setup_preirq_body (st2 : St) : St :=
  let lcr : Int :=
    Int.lor (Int.lor (st2.uart.data_bits - 5) ((st2.uart.stop_bits - 1) * 4)) st2.uart.parity
  let st3 := st2.wr UART_IER 0
  let st4 :=
    if st3.uart.dw_usr_bsy then
      let (iir, st') := st3.rd UART_IIR
      if iir &&& UART_IIR_BSY = UART_IIR_BSY then (st'.rd UART_USR).2 else st'
    else st3
  let st5 := st4.wr UART_LCR (Int.lor lcr UART_LCR_DLAB)
  let st6 :=
    if st5.uart.baud ≠ BAUD_AUTO then
      let divisor : Int := (st5.uart.clock_hz.tdiv (st5.uart.baud * 16)).emod 4294967296
      (st5.wr UART_DLL divisor).wr UART_DLM (divisor.tdiv 256)
    else
      let (dll, sa) := st5.rd UART_DLL
      let (dlm, sb) := sa.rd UART_DLM
      let divisor : Int := (dll : Int) + (dlm : Int) * 256
      { sb with uart := { sb.uart with baud := sb.uart.clock_hz.tdiv (divisor * 16) } }
  let st7 := st6.wr UART_LCR lcr
  let st8 := st7.wr UART_MCR (Int.lor UART_MCR_DTR UART_MCR_RTS)
  st8.wr UART_FCR (Int.lor (Int.lor (Int.lor UART_FCR_ENABLE UART_FCR_CLRX) UART_FCR_CLTX) UART_FCR_TRG14)

/-- ns16550_setup_preirq: clears intr_works, runs the early PCI setup,
then programs the controller (line format, divisor, modem lines, FIFOs). -/
def ns16550_setup_preirq (st0 : St) : St :=
  ns16550_setup_preirq_body
    (pci_serial_early_init { st0 with uart := { st0.uart with intr_works := false } })

/-- ns16550_setup_postirq: with an IRQ assigned, enable OUT2 and the
receive/transmit interrupt sources; with irq >= 0, arm the poll timer at
timeout_ms (returned as the list of timer arms performed). -/
def ns16550_setup_postirq (st0 : St) : St × List Nat :=
  let st :=
    if st0.uart.irq > 0 then
      (st0.wr UART_MCR (Int.lor (Int.lor UART_MCR_OUT2 UART_MCR_DTR) UART_MCR_RTS)).wr
        UART_IER (Int.lor UART_IER_ERDAI UART_IER_ETHREI)
    else st0
  if st.uart.irq ≥ 0 then (st, [st.uart.timeout_ms]) else (st, [])

/-- ns16550_init_postirq, restricted to its effect on the descriptor and
the bus: returns unchanged when irq < 0, else derives timeout_ms from the
frame size, FIFO depth and baud rate (C int division then conversion to
unsigned int inside max_t) and runs the post-IRQ setup. -/
def ns16550_init_postirq (st : St) : St × List Nat :=
  if st.uart.irq < 0 then (st, [])
  else
    let bits : Int := st.uart.data_bits + st.uart.stop_bits + (if st.uart.parity ≠ 0 then 1 else 0)
    let tms : Nat := max 1 (((bits * st.uart.fifo_size * 1000).tdiv st.uart.baud).emod 4294967296).toNat
    ns16550_setup_postirq { st with uart := { st.uart with timeout_ms := tms } }

/-- ns16550_suspend: stops the poll timer and, when PCI-attached (bar set),
snapshots the command register into cr. -/
def ns16550_suspend (st : St) : St :=
  if st.uart.bar ≠ 0 then
    { st with uart := { st.uart with
        cr := pci_conf_read16 st.pci st.uart.ps_bdf.1 st.uart.ps_bdf.2.1 st.uart.ps_bdf.2.2 PCI_COMMAND } }
  else st

/-- _ns16550_resume: the real resume - restore the BAR and command register
when PCI-attached, then re-run both setup phases. -/
def _ns16550_resume (st0 : St) : St × List Nat :=
  let st :=
    if st0.uart.bar ≠ 0 then
      let u := st0.uart
      let p := pci_conf_write32 st0.pci u.ps_bdf.1 u.ps_bdf.2.1 u.ps_bdf.2.2
        (PCI_BASE_ADDRESS_0 + u.bar_idx * 4) u.bar
      let p := pci_conf_write16 p u.ps_bdf.1 u.ps_bdf.2.1 u.ps_bdf.2.2 PCI_COMMAND u.cr
      { st0 with pci := p }
    else st0
  ns16550_setup_postirq (ns16550_setup_preirq st)

/-- What a single entry into the resume machinery did. -/
inductive ResumeAct where
  | scheduledRetry
  | realResumed
deriving DecidableEq, Repr

/-- ns16550_resume as a single step: probe the hardware; when it has
vanished, schedule the delayed retry (resetting the retry budget),
otherwise perform the real resume at once. -/
def ns16550_resume (st : St) : St × ResumeAct :=
  let (inv, d) := ns16550_ioport_invalid st.uart st.dev
  let st' := { st with dev := d }
  if inv then (st', ResumeAct.scheduledRetry)
  else ((_ns16550_resume st').1, ResumeAct.realResumed)

/-- Events of the resume retry state machine. -/
inductive RTEv where
  | retry
  | real
deriving DecidableEq, Repr

/-- Temporal model of ns16550_delayed_resume: `invalid k` abstracts the
outcome of the k-th ns16550_ioport_invalid probe, and the second argument
is the current value of the global delayed_resume_tries counter.  The C
condition `invalid && tries--` schedules a further retry exactly when the
probe fails with a nonzero counter (post-decrementing it), and otherwise
falls through to the real resume. -/
def ns16550_delayed_resume_chain (invalid : Nat → Bool) : Nat → Nat → List RTEv
  | _, 0 => [RTEv.real]
  | k, t + 1 =>
      if invalid k then RTEv.retry :: ns16550_delayed_resume_chain invalid (k + 1) t
      else [RTEv.real]

/-- Temporal model of ns16550_resume followed by the timer-driven chain of
ns16550_delayed_resume invocations.  rmax models RESUME_RETRIES, the
bounded retry budget declared in xen/include/xen/serial.h (not part of
src/); the initial failing probe loads the counter with rmax and schedules
the first retry. -/
def ns16550_resume_trace (invalid : Nat → Bool) (rmax : Nat) : List RTEv :=
  if invalid 0 then RTEv.retry :: ns16550_delayed_resume_chain invalid 1 rmax
  else [RTEv.real]

/-- check_existence: port-mapped candidates (io_base below 0x10000) run the
early PCI setup, then the IER low-nibble round-trip test (restoring the
saved IER value before judging the outcome) and the loopback test
expecting modem-status high nibble 0x9; memory-mapped candidates are
assumed present. -/
def check_existence (st : St) : Bool × St :=
  if st.uart.io_base ≥ 0x10000 then (true, st)
  else
    let st := pci_serial_early_init st
    let (scratch, st) := st.rd UART_IER
    let st := st.wr UART_IER 0
    let (v2, st) := st.rd UART_IER
    let scratch2 := v2 &&& 0x0f
    let st := st.wr UART_IER 0x0F
    let (v3, st) := st.rd UART_IER
    let scratch3 := v3 &&& 0x0f
    let st := st.wr UART_IER (scratch : Int)
    if scratch2 ≠ 0 ∨ scratch3 ≠ 0x0F then (false, st)
    else
      let st := st.wr UART_MCR (Int.lor UART_MCR_LOOP 0x0A)
      let (msr, st) := st.rd UART_MSR
      (msr &&& 0xF0 = 0x90, st)

/-- Examination of one PCI function by pci_uart_config: compute the next
function index (walking 1..7 only from a multi-function header, with the
absent-function class 0xffff forcing a skip to the next device), match the
serial class codes, require an I/O-space target BAR, size via an all-ones
write to the first BAR, restore the saved value to the target BAR, and
accept exactly an 8-byte I/O region; acceptance yields the saved BAR value
and the resolved IRQ line. -/
def pci_examine (p : PciBus) (b d f bar_idx : Nat) : PciBus × Nat × Option (Nat × Nat) :=
  let nextf := if f ≠ 0 ∨ (pci_conf_read16 p b d f PCI_HEADER_TYPE &&& 0x80) ≠ 0 then f + 1 else 8
  let cls := pci_conf_read16 p b d f PCI_CLASS_DEVICE
  if cls = 0x0700 ∨ cls = 0x0702 ∨ cls = 0x0780 then
    let bar := pci_conf_read32 p b d f (PCI_BASE_ADDRESS_0 + bar_idx * 4)
    if bar &&& PCI_BASE_ADDRESS_SPACE_IO = 0 then (p, nextf, none)
    else
      let p1 := pci_conf_write32 p b d f PCI_BASE_ADDRESS_0 0xffffffff
      let len := pci_conf_read32 p1 b d f PCI_BASE_ADDRESS_0
      let p2 := pci_conf_write32 p1 b d f (PCI_BASE_ADDRESS_0 + bar_idx * 4) bar
      if len &&& 0xffff ≠ 0xfff9 then (p2, nextf, none)
      else
        let irq := if pci_conf_read8 p2 b d f PCI_INTERRUPT_PIN ≠ 0
                   then pci_conf_read8 p2 b d f PCI_INTERRUPT_LINE else 0
        (p2, nextf, some (bar, irq))
  else if cls = 0xffff then (p, if f = 0 then 8 else nextf, none)
  else (p, nextf, none)

/-- The triple loop of pci_uart_config, with fuel bounding the number of
examinations (65536 suffices for the whole 256 x 32 x 8 space). -/
def pci_scan : Nat → PciBus → Nat → Nat → Nat → Nat → PciBus × Option (Nat × Nat × Nat × Nat × Nat)
  | 0, p, _, _, _, _ => (p, none)
  | fuel + 1, p, bar_idx, b, d, f =>
      if b ≥ 0x100 then (p, none)
      else
        let (p', nextf, r) := pci_examine p b d f bar_idx
        match r with
        | some (bar, irq) => (p', some (b, d, f, bar, irq))
        | none =>
            if nextf < 8 then pci_scan fuel p' bar_idx b d nextf
            else if d + 1 < 0x20 then pci_scan fuel p' bar_idx b (d + 1) 0
            else pci_scan fuel p' bar_idx (b + 1) 0 0

/-- Fuel covering the full bus/device/function space. -/
def pci_scan_fuel : Nat := 65536

/-- pci_uart_config: scan (starting at bus 1 when skip_amt is set), record
location, BAR value/index, io_base and IRQ on acceptance; with no match,
fail with -1 unless skip_amt permits the fixed legacy fallback. -/
def pci_uart_config (uart : Ns16550) (skip_amt : Bool) (bar_idx : Nat) (p : PciBus) :
    Int × Ns16550 × PciBus :=
  let (p', r) := pci_scan pci_scan_fuel p bar_idx (if skip_amt then 1 else 0) 0 0
  match r with
  | some (b, d, f, bar, irqline) =>
      (0, { uart with
              ps_bdf := (b, d, f)
              bar := bar
              bar_idx := bar_idx % 256
              io_base := bar &&& 0xfffffffe
              irq := (irqline : Int) }, p')
  | none =>
      if ¬ skip_amt then (-1, uart, p')
      else (0, { uart with io_base := 0x3f8, irq := 0, clock_hz := UART_CLOCK_HZ }, p')

/-- The function-stepping rule of the scan, as a pure function of the
configuration space: walk to f+1 when f is nonzero or the header declares
multi-function, except that class 0xffff at function 0 skips the device. -/
def pci_nextf (p : PciBus) (b d f : Nat) : Nat :=
  let n0 := if f ≠ 0 ∨ (pci_conf_read16 p b d f PCI_HEADER_TYPE &&& 0x80) ≠ 0 then f + 1 else 8
  if pci_conf_read16 p b d f PCI_CLASS_DEVICE = 0xffff ∧ f = 0 then 8 else n0

/-- The acceptance condition of the scan as a predicate of one function's
original configuration header: a serial class code, an I/O-space target
BAR, and first-BAR sizing that reads back exactly an 8-byte I/O region. -/
def fnAccept (fn : PciFn) (bar_idx : Nat) : Bool :=
  (decide (fn.class_device % 65536 = 0x0700) || decide (fn.class_device % 65536 = 0x0702) ||
    decide (fn.class_device % 65536 = 0x0780)) &&
  decide ((fn.bars bar_idx % 4294967296) &&& PCI_BASE_ADDRESS_SPACE_IO ≠ 0) &&
  decide ((((0xffffffff &&& fn.barMask 0) ||| fn.barHard 0) % 4294967296) &&& 0xffff = 0xfff9)

/-- The BAR value the scan records for an accepted function. -/
def fnBar (fn : PciFn) (bar_idx : Nat) : Nat := fn.bars bar_idx % 4294967296

/-- The IRQ the scan records for an accepted function: its interrupt line
if it declares an interrupt pin, else 0. -/
def fnIrq (fn : PciFn) : Nat :=
  if fn.intr_pin % 256 ≠ 0 then fn.intr_line % 256 else 0

/-- The claim-side enumeration: first (bus, device, function) in ascending
order, stepped exactly like the scan, whose original header satisfies
fnAccept. -/
def pci_first_match : Nat → PciBus → Nat → Nat → Nat → Nat → Option (Nat × Nat × Nat)
  | 0, _, _, _, _, _ => none
  | fuel + 1, p, bar_idx, b, d, f =>
      if b ≥ 0x100 then none
      else if fnAccept (p b d f) bar_idx then some (b, d, f)
      else
        let nextf := pci_nextf p b d f
        if nextf < 8 then pci_first_match fuel p bar_idx b d nextf
        else if d + 1 < 0x20 then pci_first_match fuel p bar_idx b (d + 1) 0
        else pci_first_match fuel p bar_idx (b + 1) 0 0

/-- Linear index of a (bus, device, function) triple in enumeration order. -/
def lexIdx (t : Nat × Nat × Nat) : Nat := t.1 * 256 + t.2.1 * 8 + t.2.2

/-- Well-formed PCI function: stored BAR values are 32-bit and are fixed
points of the BAR write-masking semantics, and the hardwired bits are
32-bit (true of any real BAR register). -/
def PciFn.wf (fn : PciFn) : Prop :=
  ∀ i, fn.bars i < 4294967296 ∧ fn.barHard i < 4294967296 ∧
    ((fn.bars i &&& fn.barMask i) ||| fn.barHard i = fn.bars i)

/-- Well-formed configuration space: every function is well-formed. -/
def PciBus.wf (p : PciBus) : Prop := ∀ b d f, (p b d f).wf

/-- C unsigned-long-to-int conversion (two's complement truncation). -/
def toInt32 (n : Nat) : Int :=
  if n % 4294967296 < 2147483648 then ((n % 4294967296 : Nat) : Int)
  else ((n % 4294967296 : Nat) : Int) - 4294967296

/-- C long-to-int conversion via the 64-bit two's complement pattern. -/
def intTrunc32 (x : Int) : Int := toInt32 (x.emod 18446744073709551616).toNat

/-- ASCII upper-casing, as toupper does on the characters involved. -/
def toupperc (c : Char) : Char :=
  if 'a' ≤ c ∧ c ≤ 'z' then Char.ofNat (c.toNat - 32) else c

/-- ASCII decimal digit test. -/
def isdigitc (c : Char) : Bool := '0' ≤ c && c ≤ '9'

/-- ASCII hexadecimal digit test. -/
def isxdigitc (c : Char) : Bool :=
  isdigitc c || ('a' ≤ c && c ≤ 'f') || ('A' ≤ c && c ≤ 'F')

/-- Value of a hexadecimal digit character. -/
def xdigit_val (c : Char) : Nat :=
  if isdigitc c then c.toNat - '0'.toNat else (toupperc c).toNat - 'A'.toNat + 10

/-- Digit-accumulation loop of simple_strtoul, wrapping like C unsigned
long arithmetic. -/
def strtoul_digits (base : Nat) : List Char → Nat → Nat × List Char
  | [], acc => (acc, [])
  | c :: rest, acc =>
      if isxdigitc c ∧ xdigit_val c < base then
        strtoul_digits base rest ((acc * base + xdigit_val c) % 18446744073709551616)
      else (acc, c :: rest)

/-- Modelled from the spec: simple_strtoul, the numeric-prefix parser the
configuration grammar of section 4.4 relies on (declared in Xen's common
code, outside src/): base 0 selects decimal, or octal/hex from a 0 / 0x
prefix; parsing stops at the first non-digit, which is returned as the
rest. -/
def simple_strtoul (s : List Char) (base : Nat) : Nat × List Char :=
  if base = 0 then
    match s with
    | '0' :: c :: c2 :: r2 =>
        if toupperc c = 'X' ∧ isxdigitc c2 then strtoul_digits 16 (c2 :: r2) 0
        else strtoul_digits 8 (c :: c2 :: r2) 0
    | '0' :: rest => strtoul_digits 8 rest 0
    | _ => strtoul_digits 10 s 0
  else if base = 16 then
    match s with
    | '0' :: c :: rest =>
        if toupperc c = 'X' then strtoul_digits 16 rest 0
        else strtoul_digits 16 ('0' :: c :: rest) 0
    | _ => strtoul_digits 16 s 0
  else strtoul_digits base s 0

/-- Modelled from the spec: simple_strtol, the signed variant (outside
src/): an optional leading minus sign negating the unsigned parse. -/
def simple_strtol (s : List Char) (base : Nat) : Int × List Char :=
  match s with
  | '-' :: rest =>
      let (v, r) := simple_strtoul rest base
      (-(v : Int), r)
  | _ =>
      let (v, r) := simple_strtoul s base
      ((v : Int), r)

/-- parse_parity_char: the five recognised parity letters map to their LCR
field values; every other character falls through to 0, the same value as
none. -/
def parse_parity_char (c : Char) : Int :=
  if c = 'n' then UART_PARITY_NONE
  else if c = 'o' then UART_PARITY_ODD
  else if c = 'e' then UART_PARITY_EVEN
  else if c = 'm' then UART_PARITY_MARK
  else if c = 's' then UART_PARITY_SPACE
  else 0

/-- The character a C string pointer reads at the current position (the
terminating NUL once the list is exhausted). -/
def headC (s : List Char) : Char := s.headD (Char.ofNat 0)

/-- Baud field of ns16550_parse_port_config: a literal "auto" prefix sets
the auto sentinel; otherwise a nonzero parsed number (truncated to int)
replaces the default baud rate. -/
def parse_stage_baud (conf0 : List Char) (st0 : St) : St × List Char :=
  if conf0.take 4 = "auto".data then
    ({ st0 with uart := { st0.uart with baud := BAUD_AUTO } }, conf0.drop 4)
  else
    let (v, c') := simple_strtoul conf0 10
    let bi := toInt32 v
    (if bi ≠ 0 then { st0 with uart := { st0.uart with baud := bi } } else st0, c')

/-- Optional /clock field: parsed with base 0 and shifted left 4 as C
unsigned long arithmetic before the int assignment. -/
def parse_stage_clock (st : St) (conf : List Char) : St × List Char :=
  if headC conf = '/' then
    let (v, c') := simple_strtoul conf.tail 0
    ({ st with uart := { st.uart with
        clock_hz := toInt32 ((v * 16) % 18446744073709551616) } }, c')
  else (st, conf)

/-- Optional DPS field: data bits, one parity character, stop bits.  Note
the C pointer increment in the guard: a present-but-empty field leaves the
cursor on the second comma. -/
def parse_stage_dps (st : St) (conf : List Char) : St × List Char :=
  if headC conf = ',' then
    let c1 := conf.tail
    if headC c1 ≠ ',' then
      let (db, r1) := simple_strtoul c1 10
      let par := parse_parity_char (headC r1)
      let (sb, r2) := simple_strtoul (r1.drop 1) 10
      ({ st with uart := { st.uart with
          data_bits := toInt32 db
          parity := par
          stop_bits := toInt32 sb } }, r2)
    else (st, c1)
  else (st, conf)

/-- Optional location field: the pci / amt sentinels run the bus scan
(aborting the whole parse on scan failure, the right summand), and any
other token is a literal bus address. -/
def parse_stage_iobase (idx : Nat) (st : St) (conf : List Char) :
    Sum (St × List Char) St :=
  if headC conf = ',' then
    let c1 := conf.tail
    if headC c1 ≠ ',' then
      if c1.take 3 = "pci".data then
        let (ret, u', p') := pci_uart_config st.uart true idx st.pci
        if ret ≠ 0 then Sum.inr { st with pci := p' }
        else Sum.inl ({ st with uart := u', pci := p' }, c1.drop 3)
      else if c1.take 3 = "amt".data then
        let (ret, u', p') := pci_uart_config st.uart false idx st.pci
        if ret ≠ 0 then Sum.inr { st with pci := p' }
        else Sum.inl ({ st with uart := u', pci := p' }, c1.drop 3)
      else
        let (v, c') := simple_strtoul c1 0
        Sum.inl ({ st with uart := { st.uart with io_base := v } }, c')
    else Sum.inl (st, c1)
  else Sum.inl (st, conf)

/-- Optional irq field, parsed signed and truncated to int. -/
def parse_stage_irq (st : St) (conf : List Char) : St × List Char :=
  if headC conf = ',' then
    let c1 := conf.tail
    if headC c1 ≠ ',' then
      let (l, c') := simple_strtol c1 10
      ({ st with uart := { st.uart with irq := intTrunc32 l } }, c')
    else (st, c1)
  else (st, conf)

/-- Optional serial-port PCI coordinates: malformed coordinates abort the
parse (PARSE_ERR), the right summand. -/
def parse_stage_psbdf (parsePci : List Char → Option ((Nat × Nat × Nat) × List Char))
    (st : St) (conf : List Char) : Sum (St × List Char) St :=
  if headC conf = ',' then
    let c1 := conf.tail
    if headC c1 ≠ ',' then
      match parsePci c1 with
      | none => Sum.inr st
      | some (bdf, c') =>
          Sum.inl ({ st with uart := { st.uart with
              ps_bdf := bdf
              ps_bdf_enable := true } }, c')
    else Sum.inl (st, c1)
  else Sum.inl (st, conf)

/-- Optional bridge PCI coordinates: malformed coordinates abort the
parse; the cursor is not advanced by this final field. -/
def parse_stage_pbbdf (parsePci : List Char → Option ((Nat × Nat × Nat) × List Char))
    (st : St) (conf : List Char) : Sum (St × List Char) St :=
  if headC conf = ',' then
    let c1 := conf.tail
    if headC c1 ≠ ',' then
      match parsePci c1 with
      | none => Sum.inr st
      | some (bdf, _) =>
          Sum.inl ({ st with uart := { st.uart with
              pb_bdf := bdf
              pb_bdf_enable := true } }, c1)
    else Sum.inl (st, c1)
  else Sum.inl (st, conf)

/-- The parsing phase of ns16550_parse_port_config: all fields before the
config_parsed validation label.  The boolean reports whether control
reaches validation (false on the early returns: an empty configuration
with no platform-probed baud, a failed pci/amt scan, or malformed PCI
coordinates).  parsePci abstracts the external parse_pci helper, which is
not part of src/. -/
def ns16550_parse_fields
    (parsePci : List Char → Option ((Nat × Nat × Nat) × List Char))
    (idx : Nat) (conf0 : List Char) (st0 : St) : St × Bool :=
  if conf0 = [] then (st0, st0.uart.baud ≠ 0)
  else
    let (st1, c1) := parse_stage_baud conf0 st0
    let (st2, c2) := parse_stage_clock st1 c1
    let (st3, c3) := parse_stage_dps st2 c2
    match parse_stage_iobase idx st3 c3 with
    | Sum.inr st' => (st', false)
    | Sum.inl (st4, c4) =>
        let (st5, c5) := parse_stage_irq st4 c4
        match parse_stage_psbdf parsePci st5 c5 with
        | Sum.inr st' => (st', false)
        | Sum.inl (st6, c6) =>
            match parse_stage_pbbdf parsePci st6 c6 with
            | Sum.inr st' => (st', false)
            | Sum.inl (st7, _) => (st7, true)

/-- The validation tail of ns16550_parse_port_config, from the
config_parsed label on: the sanity checks, the existence probe, and - when
everything passes - registration with the generic serial driver (the
boolean result). -/
def ns16550_parse_tail (st : St) : St × Bool :=
  let u := st.uart
  if u.baud ≠ BAUD_AUTO ∧ (u.baud < 1200 ∨ u.baud > 115200) then (st, false)
  else if u.data_bits < 5 ∨ u.data_bits > 8 then (st, false)
  else if u.stop_bits < 1 ∨ u.stop_bits > 2 then (st, false)
  else if u.io_base = 0 then (st, false)
  else
    let (ok, st') := check_existence st
    if ok then (st', true) else (st', false)

/-- ns16550_parse_port_config: parse, then validate and register.  The
boolean result is whether serial_register_uart was reached. -/
def ns16550_parse_port_config
    (parsePci : List Char → Option ((Nat × Nat × Nat) × List Char))
    (idx : Nat) (conf : List Char) (st : St) : St × Bool :=
  let (st', reached) := ns16550_parse_fields parsePci idx conf st
  if reached then ns16550_parse_tail st' else (st', false)

/-- The identification probe as the claim states it, as a predicate of the
descriptor and the pending register-bank responses: memory-mapped
candidates (io_base at or above 0x10000) are presumed present; otherwise
the second and third IER reads must round-trip the low nibble of 0x00 and
0x0F, and the modem-status read must have high nibble exactly 0x9. -/
def probe_present_spec (u : Ns16550) (scr : List Nat) : Bool :=
  decide (u.io_base ≥ 0x10000) ||
  (decide ((scr.getD 1 0 % 256) &&& 0x0f = 0) &&
   decide ((scr.getD 2 0 % 256) &&& 0x0f = 0x0F) &&
   decide ((scr.getD 3 0 % 256) &&& 0xF0 = 0x90))

/-- The registration conditions as the claim states them: baud auto or in
range, data bits in range, stop bits 1 or 2, nonzero io_base, and the
identification probe succeeding. -/
def registration_conditions (st : St) : Bool :=
  (decide (st.uart.baud = BAUD_AUTO) ||
    (decide (1200 ≤ st.uart.baud) && decide (st.uart.baud ≤ 115200))) &&
  decide (5 ≤ st.uart.data_bits) && decide (st.uart.data_bits ≤ 8) &&
  (decide (st.uart.stop_bits = 1) || decide (st.uart.stop_bits = 2)) &&
  decide (st.uart.io_base ≠ 0) &&
  probe_present_spec st.uart st.dev.script


/-- The bus-transaction trace the identification probe appends for a
port-mapped candidate: save the IER, write 0 and 0x0F reading back each
time, rewrite the saved value regardless of the outcome, and only on a
successful round-trip enter loopback mode and read the modem status. -/
def probe_log_spec (u : Ns16550) (scr : List Nat) : List BusEv :=
  let a := u.io_base + UART_IER
  let v0 := scr.getD 0 0 % 256
  let v1 := scr.getD 1 0 % 256
  let v2 := scr.getD 2 0 % 256
  let v3 := scr.getD 3 0 % 256
  [BusEv.read a v0, BusEv.write a 0, BusEv.read a v1, BusEv.write a 0x0F,
   BusEv.read a v2, BusEv.write a v0] ++
  (if v1 &&& 0x0f = 0 ∧ v2 &&& 0x0f = 0x0F then
    [BusEv.write (u.io_base + UART_MCR) 0x1A, BusEv.read (u.io_base + UART_MSR) v3]
   else [])
/-- A typical com1 descriptor as ns16550_init builds it before parsing. -/
def exUart : Ns16550 where
  baud := 0
  clock_hz := 1843200
  data_bits := 8
  parity := 0
  stop_bits := 1
  fifo_size := 1
  irq := 4
  io_base := 0x3f8
  io_size := 8
  reg_shift := 0
  reg_width := 1
  remapped_io_base := none
  timeout_ms := 0
  intr_works := false
  dw_usr_bsy := false
  pb_bdf := (0, 0, 0)
  ps_bdf := (0, 0, 0)
  pb_bdf_enable := false
  ps_bdf_enable := false
  bar := 0
  cr := 0
  bar_idx := 0

/-- A configuration space with no devices at all. -/
def trivialBus : PciBus := fun _ _ _ => absentFn

/-- A parse_pci stand-in that rejects every coordinate string. -/
def noPciParse : List Char → Option ((Nat × Nat × Nat) × List Char) := fun _ => none

/-- Combined state around exUart whose register bank answers the
identification probe affirmatively. -/
def exSt : St := ⟨exUart, ⟨[0x00, 0x00, 0x0F, 0x90], []⟩, trivialBus⟩

/-- A serial-class function at (1,0,0), multi-function header, whose first
BAR is a 16-byte I/O region (sizing reads back 0xfffffff1) and whose
second BAR is an 8-byte I/O region. -/
def fnA : PciFn where
  header_type := 0x80
  class_device := 0x0700
  bars := fun j => if j = 0 then 0xe001 else if j = 1 then 0x9001 else 0
  barMask := fun j => if j = 0 then 0xfffffff0 else if j = 1 then 0xfffffff8 else 0xffffffff
  barHard := fun j => if j ≤ 1 then 1 else 0
  intr_pin := 0
  intr_line := 0
  command := 5
  io_base_reg := 0

/-- A serial-class function at (1,0,1) whose first and second BARs are
both 8-byte I/O regions, with interrupt pin 1 and line 11. -/
def fnB : PciFn where
  header_type := 0
  class_device := 0x0700
  bars := fun j => if j = 0 then 0xc001 else if j = 1 then 0xd001 else 0
  barMask := fun j => if j ≤ 1 then 0xfffffff8 else 0xffffffff
  barHard := fun j => if j ≤ 1 then 1 else 0
  intr_pin := 1
  intr_line := 0x0b
  command := 5
  io_base_reg := 0

/-- A two-function demonstration bus: fnA at (1,0,0), fnB at (1,0,1). -/
def exBus : PciBus := fun b d f =>
  if b = 1 ∧ d = 0 ∧ f = 0 then fnA
  else if b = 1 ∧ d = 0 ∧ f = 1 then fnB
  else absentFn

/-- exUart after one observed interrupt (intr_works latched). -/
def exUartIntr : Ns16550 := { exUart with intr_works := true }

/-- A misconfigured memory-mapped descriptor: remapped base present but
register width neither 1 nor 4. -/
def exUartBadWidth : Ns16550 :=
  { exUart with remapped_io_base := some 0x1000, reg_width := 2, io_base := 0xfe000000 }

/-- A state with intr_works latched, about to be resumed over responsive
hardware (IER reads back 0). -/
def exResumeSt : St := ⟨{ exUart with intr_works := true, baud := 115200 }, ⟨[0x00], []⟩, trivialBus⟩

/-- The combined-state operations never touch the descriptor. -/
theorem St_wr_uart (st : St) (r : Nat) (c : Int) : (St.wr st r c).uart = st.uart := rfl

/-- The combined-state operations never touch PCI space. -/
theorem St_wr_pci (st : St) (r : Nat) (c : Int) : (St.wr st r c).pci = st.pci := rfl

/-- Reading a register leaves the descriptor unchanged. -/
theorem St_rd_uart (st : St) (r : Nat) : ((St.rd st r).2).uart = st.uart := rfl

/-- Reading a register leaves PCI space unchanged. -/
theorem St_rd_pci (st : St) (r : Nat) : ((St.rd st r).2).pci = st.pci := rfl

/-- The early PCI setup never touches the descriptor. -/
theorem pci_serial_early_init_uart (st : St) : (pci_serial_early_init st).uart = st.uart := by
  unfold pci_serial_early_init
  split <;> rfl

/-- The early PCI setup never touches the register bank. -/
theorem pci_serial_early_init_dev (st : St) : (pci_serial_early_init st).dev = st.dev := by
  unfold pci_serial_early_init
  split <;> rfl

/-- With ps_bdf_enable clear the early PCI setup is the identity. -/
theorem pci_serial_early_init_off (st : St) (h : st.uart.ps_bdf_enable = false) :
    pci_serial_early_init st = st := by
  unfold pci_serial_early_init
  rw [if_pos]
  exact Or.inl (by simp [h])

/-- C10: with a remapped base present and reg_width neither 1 nor 4, every
register read returns the all-ones byte and every write is a no-op, with
no bus traffic; consequently the hardware-vanished check always holds, the
transmit-readiness query returns the I/O error, and get-char returns
no-data. -/
theorem claim_C10_bad_width :
    ∀ (u : Ns16550) (s : ScriptState) (base : Nat),
      u.remapped_io_base = some base → u.reg_width ≠ 1 → u.reg_width ≠ 4 →
      (∀ reg, ns_read_reg u s reg = (0xff, s)) ∧
      (∀ reg c, ns_write_reg u s reg c = s) ∧
      ns16550_ioport_invalid u s = (true, s) ∧
      ns16550_tx_ready u s = (-errno_eio, s) ∧
      ns16550_getc u s = (none, s) := by
  intro u s base h h1 h4
  have hr : ∀ reg, ns_read_reg u s reg = (0xff, s) := by
    intro reg
    unfold ns_read_reg
    rw [h]
    simp [h1, h4]
  have hi : ns16550_ioport_invalid u s = (true, s) := by
    unfold ns16550_ioport_invalid
    rw [hr]
    rfl
  refine ⟨hr, ?_, hi, ?_, ?_⟩
  · intro reg c
    unfold ns_write_reg
    rw [h]
    simp [h1, h4]
  · unfold ns16550_tx_ready
    rw [hi]
    rfl
  · unfold ns16550_getc
    rw [hi]
    rfl

/-- C10 witness: the misconfigured descriptor exUartBadWidth at a concrete
bank state. -/
theorem claim_C10_witness :
    ns16550_tx_ready exUartBadWidth ⟨[], []⟩ = (-errno_eio, ⟨[], []⟩) ∧
    ns16550_getc exUartBadWidth ⟨[], []⟩ = (none, ⟨[], []⟩) :=
  ⟨(claim_C10_bad_width exUartBadWidth ⟨[], []⟩ 0x1000 rfl (by decide) (by decide)).2.2.2.1,
   (claim_C10_bad_width exUartBadWidth ⟨[], []⟩ 0x1000 rfl (by decide) (by decide)).2.2.2.2⟩

/-- C6: the transmit-readiness query returns the negative I/O error
(distinguishable from zero) exactly when the hardware-vanished check
trips on the first register-bank response, else the FIFO depth when the
line-status response has THRE set, else zero. -/
theorem claim_C6_tx_ready :
    ∀ (u : Ns16550) (s : ScriptState),
      u.remapped_io_base = none →
      ((ns16550_tx_ready u s).1 =
        (if s.script.getD 0 0 % 256 = 0xff then -errno_eio
         else if (s.script.getD 1 0 % 256) &&& UART_LSR_THRE ≠ 0 then u.fifo_size else 0)) ∧
      (-errno_eio < 0 ∧ -errno_eio ≠ (0 : Int)) := by
  intro u s h
  refine ⟨?_, by decide, by decide⟩
  rcases s with ⟨scr, log⟩
  match scr with
  | [] =>
      simp [ns16550_tx_ready, ns16550_ioport_invalid, ns_read_reg, h]
  | a :: tl =>
      by_cases ha : a % 256 = 0xff
      · simp [ns16550_tx_ready, ns16550_ioport_invalid, ns_read_reg, h, ha]
      · match tl with
        | [] => simp [ns16550_tx_ready, ns16550_ioport_invalid, ns_read_reg, h, ha]
        | b :: tl2 => simp [ns16550_tx_ready, ns16550_ioport_invalid, ns_read_reg, h, ha]

/-- C6 witness: vanished hardware (IER responds 0xff) yields the error at
a concrete state; a THRE response yields the FIFO depth. -/
theorem claim_C6_witness :
    (ns16550_tx_ready exUart ⟨[0xff], []⟩).1 = -errno_eio ∧
    (ns16550_tx_ready exUart ⟨[0, 0x20], []⟩).1 = exUart.fifo_size :=
  ⟨by rw [(claim_C6_tx_ready exUart ⟨[0xff], []⟩ rfl).1]; decide,
   by rw [(claim_C6_tx_ready exUart ⟨[0, 0x20], []⟩ rfl).1]; decide⟩

/-- C1 (amended): once intr_works is latched the poll-timer callback is a
pure no-op - no register reads or writes, no callbacks, no timer rearm -
and the flag survives suspend and is (re)established by the interrupt
handler; only the real-resume path resets it, via the pre-IRQ setup. -/
theorem claim_C1_intr_works_latch :
    (∀ (u : Ns16550) (fuel : Nat) (s : ScriptState),
       u.intr_works = true → __ns16550_poll u fuel s = some ⟨0, false, [], s⟩) ∧
    (∀ st : St, (ns16550_suspend st).uart.intr_works = st.uart.intr_works) ∧
    (∀ (u : Ns16550) (fuel : Nat) (s : ScriptState),
       ((ns16550_interrupt u fuel s).1).intr_works = true) := by
  refine ⟨?_, ?_, ?_⟩
  · intro u fuel s h
    simp [__ns16550_poll, h]
  · intro st
    unfold ns16550_suspend
    split <;> rfl
  · intro u fuel s
    rfl

/-- C1 witness: a latched descriptor's poll invocation leaves a concrete
bank untouched and performs no rearm. -/
theorem claim_C1_witness :
    __ns16550_poll exUartIntr 5 ⟨[1, 2, 3], []⟩ = some ⟨0, false, [], ⟨[1, 2, 3], []⟩⟩ :=
  claim_C1_intr_works_latch.1 exUartIntr 5 ⟨[1, 2, 3], []⟩ rfl

/-- C1 counterexample: intr_works does not remain true across every
subsequent callback-table operation - a resume over responsive hardware
re-runs the pre-IRQ setup, which resets intr_works to false. -/
theorem claim_C1_counterexample :
    exResumeSt.uart.intr_works = true ∧
    ((ns16550_resume exResumeSt).1).uart.intr_works = false := by
  constructor
  · rfl
  · decide

/-- C9: every character outside the five recognised parity letters falls
through parse_parity_char to the same value as n (none), so the
configuration is not rejected; concretely, 115200,8x1 parses and registers
successfully with parity none. -/
theorem claim_C9_parity_fallthrough :
    (∀ c : Char, c ∉ ['n', 'o', 'e', 'm', 's'] →
       parse_parity_char c = parse_parity_char 'n') ∧
    (ns16550_parse_port_config noPciParse 0 ("115200,8x1".data) exSt).2 = true ∧
    (ns16550_parse_port_config noPciParse 0 ("115200,8x1".data) exSt).1.uart.parity =
      UART_PARITY_NONE := by
  refine ⟨?_, by decide, by decide⟩
  intro c h
  simp only [List.mem_cons, List.mem_singleton, not_or] at h
  obtain ⟨h1, h2, h3, h4, h5⟩ := h
  simp [parse_parity_char, h1, h2, h3, h4, h5, UART_PARITY_NONE]

/-- C9 witness: the fall-through applied at the concrete character x. -/
theorem claim_C9_witness : parse_parity_char 'x' = parse_parity_char 'n' :=
  claim_C9_parity_fallthrough.1 'x' (by decide)

/-- The post-IRQ setup performs register writes and timer arms only; the
descriptor itself is unchanged. -/
theorem setup_postirq_uart (st : St) : (ns16550_setup_postirq st).1.uart = st.uart := by
  unfold ns16550_setup_postirq
  split <;> (dsimp only []; split <;> rfl)

/-- The timeout value ns16550_init_postirq computes, before any
abstraction: C int division, conversion to unsigned int, max_t with 1. -/
theorem init_postirq_timeout (st : St) (h : ¬ st.uart.irq < 0) :
    (ns16550_init_postirq st).1.uart.timeout_ms =
      max 1 (((((st.uart.data_bits + st.uart.stop_bits +
        (if st.uart.parity ≠ 0 then 1 else 0)) * st.uart.fifo_size * 1000).tdiv
          st.uart.baud).emod 4294967296).toNat) := by
  unfold ns16550_init_postirq
  rw [if_neg h]
  dsimp only []
  rw [setup_postirq_uart]

/-- C8: for a descriptor handled by the post-IRQ setup (irq nonnegative)
with in-range frame parameters and a positive baud rate, the derived poll
interval is exactly max(1, (data_bits + stop_bits + [parity set]) *
fifo_size * 1000 / baud) with exact integer division. -/
theorem claim_C8_timeout :
    ∀ st : St, st.uart.irq ≥ 0 → 0 < st.uart.baud →
      5 ≤ st.uart.data_bits → st.uart.data_bits ≤ 8 →
      1 ≤ st.uart.stop_bits → st.uart.stop_bits ≤ 2 →
      1 ≤ st.uart.fifo_size → st.uart.fifo_size ≤ 16 →
      (((ns16550_init_postirq st).1.uart.timeout_ms : Int) =
        max 1 ((st.uart.data_bits + st.uart.stop_bits +
          (if st.uart.parity ≠ 0 then 1 else 0)) * st.uart.fifo_size * 1000 / st.uart.baud)) := by
  intro st hirq hb hd1 hd2 hs1 hs2 hf1 hf2
  rw [init_postirq_timeout st (by omega)]
  set bits : Int := st.uart.data_bits + st.uart.stop_bits +
    (if st.uart.parity ≠ 0 then 1 else 0) with hbits
  have hbpos : 0 ≤ bits := by rw [hbits]; split <;> omega
  have hble : bits ≤ 11 := by rw [hbits]; split <;> omega
  set x : Int := bits * st.uart.fifo_size * 1000 with hx
  have hx0 : 0 ≤ x := by
    rw [hx]
    have : (0:Int) ≤ st.uart.fifo_size := by omega
    nlinarith
  have hxle : x ≤ 176000 := by rw [hx]; nlinarith
  have htd : x.tdiv st.uart.baud = x / st.uart.baud := Int.tdiv_eq_ediv hx0 (le_of_lt hb)
  have hq0 : 0 ≤ x / st.uart.baud := Int.ediv_nonneg hx0 (le_of_lt hb)
  have hqlt : x / st.uart.baud < 4294967296 :=
    lt_of_le_of_lt (Int.ediv_le_self _ hx0) (by omega)
  have hmod : (x / st.uart.baud).emod 4294967296 = x / st.uart.baud :=
    Int.emod_eq_of_lt hq0 hqlt
  rw [htd, hmod, Nat.cast_max, Int.toNat_of_nonneg hq0]
  simp

/-- C8 witness: a registered 115200 8n1 descriptor with a 16-byte FIFO
polls at 1 ms. -/
theorem claim_C8_witness :
    ((ns16550_init_postirq ⟨{ exUart with baud := 115200, fifo_size := 16 }, ⟨[], []⟩,
        trivialBus⟩).1.uart.timeout_ms : Int) = 1 := by
  rw [claim_C8_timeout ⟨{ exUart with baud := 115200, fifo_size := 16 }, ⟨[], []⟩, trivialBus⟩
    (by decide) (by decide) (by decide) (by decide) (by decide) (by decide) (by decide) (by decide)]
  decide

/-- A 32-bit config write to a valid BAR offset stores through the BAR
mask and hardwired bits of the addressed function. -/
theorem pci_conf_write32_bar_self (p : PciBus) (b d f idx v : Nat) (h : idx ≤ 5) :
    (pci_conf_write32 p b d f (PCI_BASE_ADDRESS_0 + idx * 4) v) b d f =
      { p b d f with bars := fun j => if j = idx then
          ((v % 4294967296) &&& (p b d f).barMask idx) ||| (p b d f).barHard idx
        else (p b d f).bars j } := by
  unfold pci_conf_write32
  rw [if_pos (by unfold PCI_BASE_ADDRESS_0; omega)]
  have hi : (PCI_BASE_ADDRESS_0 + idx * 4 - PCI_BASE_ADDRESS_0) / 4 = idx := by
    unfold PCI_BASE_ADDRESS_0
    omega
  unfold pciUpdate
  rw [if_pos ⟨rfl, rfl, rfl⟩, hi]

/-- A 16-bit config write to the command register updates only command. -/
theorem pci_conf_write16_command_self (p : PciBus) (b d f v : Nat) :
    (pci_conf_write16 p b d f PCI_COMMAND v) b d f =
      { p b d f with command := v % 65536 } := by
  unfold pci_conf_write16
  rw [if_pos rfl]
  unfold pciUpdate
  rw [if_pos ⟨rfl, rfl, rfl⟩]

/-- The register-programming body of the pre-IRQ setup leaves PCI space
alone. -/
theorem setup_preirq_body_pci (st : St) : (ns16550_setup_preirq_body st).pci = st.pci := by
  unfold ns16550_setup_preirq_body
  dsimp only []
  repeat' split
  all_goals rfl

/-- With ps_bdf_enable clear, the pre-IRQ setup leaves PCI space alone. -/
theorem setup_preirq_pci (st : St) (h : st.uart.ps_bdf_enable = false) :
    (ns16550_setup_preirq st).pci = st.pci := by
  unfold ns16550_setup_preirq
  rw [setup_preirq_body_pci,
    pci_serial_early_init_off { st with uart := { st.uart with intr_works := false } } h]

/-- The post-IRQ setup leaves PCI space alone. -/
theorem setup_postirq_pci (st : St) : (ns16550_setup_postirq st).1.pci = st.pci := by
  unfold ns16550_setup_postirq
  split <;> (dsimp only []; split <;> rfl)

/-- The register-programming body of the pre-IRQ setup never touches
intr_works. -/
theorem setup_preirq_body_intr (st : St) :
    (ns16550_setup_preirq_body st).uart.intr_works = st.uart.intr_works := by
  unfold ns16550_setup_preirq_body
  dsimp only []
  repeat' split
  all_goals rfl

/-- The pre-IRQ setup always clears intr_works. -/
theorem setup_preirq_intr (st : St) :
    (ns16550_setup_preirq st).uart.intr_works = false := by
  unfold ns16550_setup_preirq
  rw [setup_preirq_body_intr, pci_serial_early_init_uart]

/-- The delayed-resume chain always ends in exactly one real resume. -/
theorem delayed_chain_count_real (invalid : Nat → Bool) :
    ∀ (t k : Nat), (ns16550_delayed_resume_chain invalid k t).count RTEv.real = 1 := by
  intro t
  induction t with
  | zero => intro k; rfl
  | succ t ih =>
      intro k
      unfold ns16550_delayed_resume_chain
      by_cases h : invalid k
      · simp [h, List.count_cons, ih (k + 1)]
      · simp [h]

/-- Failing probes schedule retries one-for-one while the counter lasts: m
failures starting at probe k followed by a success yield m retries then
the real resume, provided m does not exhaust the counter. -/
theorem delayed_chain_spec (invalid : Nat → Bool) :
    ∀ (m k t : Nat), (∀ j, j < m → invalid (k + j) = true) → invalid (k + m) = false →
      m ≤ t →
      ns16550_delayed_resume_chain invalid k t =
        List.replicate m RTEv.retry ++ [RTEv.real] := by
  intro m
  induction m with
  | zero =>
      intro k t _ hF _
      simp only [Nat.add_zero] at hF
      cases t with
      | zero => rfl
      | succ t' =>
          unfold ns16550_delayed_resume_chain
          simp [hF]
  | succ m ih =>
      intro k t hT hF hle
      have hk : invalid k = true := by
        have := hT 0 (by omega)
        simpa using this
      cases t with
      | zero => omega
      | succ t' =>
          unfold ns16550_delayed_resume_chain
          rw [if_pos hk]
          have h1 : ∀ j, j < m → invalid (k + 1 + j) = true := by
            intro j hj
            have h2 := hT (j + 1) (by omega)
            have : k + 1 + j = k + (j + 1) := by omega
            rw [this]
            exact h2
          have h2 : invalid (k + 1 + m) = false := by
            have : k + 1 + m = k + (m + 1) := by omega
            rw [this]
            exact hF
          rw [ih (k + 1) t' h1 h2 (by omega)]
          simp [List.replicate_succ]

/-- When the probe never succeeds, every budgeted delayed resume schedules
a retry and the real resume is then forced. -/
theorem delayed_chain_all (invalid : Nat → Bool) (h : ∀ k, invalid k = true) :
    ∀ (t k : Nat), ns16550_delayed_resume_chain invalid k t =
      List.replicate t RTEv.retry ++ [RTEv.real] := by
  intro t
  induction t with
  | zero => intro k; rfl
  | succ t ih =>
      intro k
      unfold ns16550_delayed_resume_chain
      rw [if_pos (h k), ih (k + 1)]
      simp [List.replicate_succ]

/-- C4: a resume whose probe fails R times (R below the retry budget) and
then succeeds schedules exactly R retries followed by exactly one real
resume; a probe that never succeeds schedules retries until the counter is
exhausted and then forces the real resume; every resume sequence performs
exactly one real resume; and the real resume restores the BAR (through its
write mask) and the saved command register when bus-attached, re-running
the pre-IRQ setup (observable as intr_works being cleared). -/
theorem claim_C4_resume_retries :
    (∀ (invalid : Nat → Bool) (rmax R : Nat),
       R < rmax → (∀ k, k < R → invalid k = true) → invalid R = false →
       ns16550_resume_trace invalid rmax = List.replicate R RTEv.retry ++ [RTEv.real]) ∧
    (∀ (invalid : Nat → Bool) (rmax : Nat), (∀ k, invalid k = true) →
       ns16550_resume_trace invalid rmax =
         List.replicate (rmax + 1) RTEv.retry ++ [RTEv.real]) ∧
    (∀ (invalid : Nat → Bool) (rmax : Nat),
       (ns16550_resume_trace invalid rmax).count RTEv.real = 1) ∧
    (∀ st : St, st.uart.bar ≠ 0 → st.uart.ps_bdf_enable = false → st.uart.bar_idx ≤ 5 →
       ((_ns16550_resume st).1.pci st.uart.ps_bdf.1 st.uart.ps_bdf.2.1
           st.uart.ps_bdf.2.2).command = st.uart.cr % 65536 ∧
       ((_ns16550_resume st).1.pci st.uart.ps_bdf.1 st.uart.ps_bdf.2.1
           st.uart.ps_bdf.2.2).bars st.uart.bar_idx =
         ((st.uart.bar % 4294967296) &&&
             (st.pci st.uart.ps_bdf.1 st.uart.ps_bdf.2.1 st.uart.ps_bdf.2.2).barMask
               st.uart.bar_idx) |||
           (st.pci st.uart.ps_bdf.1 st.uart.ps_bdf.2.1 st.uart.ps_bdf.2.2).barHard
             st.uart.bar_idx ∧
       (_ns16550_resume st).1.uart.intr_works = false) := by
  refine ⟨?_, ?_, ?_, ?_⟩
  · intro invalid rmax R hR hT hF
    unfold ns16550_resume_trace
    match R with
    | 0 =>
        rw [if_neg (by simp [hF])]
        rfl
    | m + 1 =>
        rw [if_pos (hT 0 (by omega))]
        rw [delayed_chain_spec invalid m 1 rmax
          (fun j hj => hT (1 + j) (by omega))
          (by have : 1 + m = m + 1 := by omega
              rw [this]; exact hF)
          (by omega)]
        simp [List.replicate_succ]
  · intro invalid rmax h
    unfold ns16550_resume_trace
    rw [if_pos (h 0), delayed_chain_all invalid h rmax 1]
    simp [List.replicate_succ]
  · intro invalid rmax
    unfold ns16550_resume_trace
    by_cases h : invalid 0
    · simp [h, List.count_cons, delayed_chain_count_real invalid rmax 1]
    · simp [h]
  · intro st hbar hps hidx
    have hpci : (_ns16550_resume st).1.pci =
        pci_conf_write16
          (pci_conf_write32 st.pci st.uart.ps_bdf.1 st.uart.ps_bdf.2.1 st.uart.ps_bdf.2.2
            (PCI_BASE_ADDRESS_0 + st.uart.bar_idx * 4) st.uart.bar)
          st.uart.ps_bdf.1 st.uart.ps_bdf.2.1 st.uart.ps_bdf.2.2 PCI_COMMAND st.uart.cr := by
      unfold _ns16550_resume
      rw [if_pos hbar]
      dsimp only []
      rw [setup_postirq_pci]
      exact setup_preirq_pci _ hps
    have hw16 := pci_conf_write16_command_self
      (pci_conf_write32 st.pci st.uart.ps_bdf.1 st.uart.ps_bdf.2.1 st.uart.ps_bdf.2.2
        (PCI_BASE_ADDRESS_0 + st.uart.bar_idx * 4) st.uart.bar)
      st.uart.ps_bdf.1 st.uart.ps_bdf.2.1 st.uart.ps_bdf.2.2 st.uart.cr
    have hw32 := pci_conf_write32_bar_self st.pci st.uart.ps_bdf.1 st.uart.ps_bdf.2.1
      st.uart.ps_bdf.2.2 st.uart.bar_idx st.uart.bar hidx
    refine ⟨?_, ?_, ?_⟩
    · rw [hpci, hw16]
    · rw [hpci, hw16]
      show ((pci_conf_write32 st.pci st.uart.ps_bdf.1 st.uart.ps_bdf.2.1 st.uart.ps_bdf.2.2
          (PCI_BASE_ADDRESS_0 + st.uart.bar_idx * 4) st.uart.bar) st.uart.ps_bdf.1
            st.uart.ps_bdf.2.1 st.uart.ps_bdf.2.2).bars st.uart.bar_idx = _
      rw [hw32]
      simp
    · unfold _ns16550_resume
      rw [if_pos hbar]
      dsimp only []
      rw [setup_postirq_uart, setup_preirq_intr]

/-- C4 witness: two failing probes then success, budget 5: exactly two
retries then the single real resume. -/
theorem claim_C4_witness :
    ns16550_resume_trace (fun k => decide (k < 2)) 5 =
      [RTEv.retry, RTEv.retry, RTEv.real] := by
  have h := claim_C4_resume_retries.1 (fun k => decide (k < 2)) 5 2 (by omega)
    (fun k hk => by simp [hk]) (by decide)
  simpa using h

/-- The poll receive loop over a scripted scenario: for each (lsr, ier)
pair the line status shows data-ready and the vanished check passes, so
one receive callback is delivered; the final data-ready response followed
by an all-ones IER aborts the cycle, leaving the rest of the script
unconsumed. -/
theorem poll_rx_loop_script :
    ∀ (pairs : List (Nat × Nat)) (u : Ns16550) (lN : Nat) (rest : List Nat)
      (log0 : List BusEv) (fuel : Nat),
      u.remapped_io_base = none →
      (∀ pr ∈ pairs, pr.1 % 256 &&& UART_LSR_DR ≠ 0 ∧ pr.2 % 256 ≠ 0xff) →
      lN % 256 &&& UART_LSR_DR ≠ 0 →
      pairs.length < fuel →
      ∃ log', ns16550_poll_rx_loop u fuel
          ⟨(pairs.map (fun pr => [pr.1, pr.2])).flatten ++ lN :: 0xff :: rest, log0⟩ =
        some (pairs.length, ⟨rest, log'⟩, true) := by
  intro pairs
  induction pairs with
  | nil =>
      intro u lN rest log0 fuel h hp hl hf
      match fuel, hf with
      | fuel' + 1, _ =>
        refine ⟨log0 ++ [BusEv.read (u.io_base + UART_LSR) (lN % 256),
                         BusEv.read (u.io_base + UART_IER) 0xff], ?_⟩
        unfold ns16550_poll_rx_loop
        simp [ns_read_reg, ns16550_ioport_invalid, h, hl]
  | cons pr tl ih =>
      intro u lN rest log0 fuel h hp hl hf
      have hpr := hp pr (by simp)
      match fuel, hf with
      | fuel' + 1, hf =>
        have htl : tl.length < fuel' := by simp at hf; omega
        obtain ⟨log', hrec⟩ := ih u lN rest
          (log0 ++ [BusEv.read (u.io_base + UART_LSR) (pr.1 % 256),
                    BusEv.read (u.io_base + UART_IER) (pr.2 % 256)]) fuel' h
          (fun q hq => hp q (by simp [hq])) hl htl
        refine ⟨log', ?_⟩
        unfold ns16550_poll_rx_loop
        simp only [List.map_cons, List.flatten, List.cons_append, List.append_assoc]
        simp [ns_read_reg, ns16550_ioport_invalid, h, hpr.1, hpr.2, hrec]

/-- C5: a poll invocation (intr_works false) whose line status reports
data-ready for N bytes with the hardware-vanished check failing on the
next iteration delivers exactly N receive callbacks, skips the transmit
check (the remaining script is untouched), and rearms the timer exactly
once at timeout_ms; and every completed poll invocation with intr_works
false rearms exactly once at timeout_ms whatever the outcome. -/
theorem claim_C5_poll_counts :
    (∀ (u : Ns16550) (pairs : List (Nat × Nat)) (lN : Nat) (rest : List Nat)
       (log0 : List BusEv) (fuel : Nat),
      u.remapped_io_base = none → u.intr_works = false →
      (∀ pr ∈ pairs, pr.1 % 256 &&& UART_LSR_DR ≠ 0 ∧ pr.2 % 256 ≠ 0xff) →
      lN % 256 &&& UART_LSR_DR ≠ 0 →
      pairs.length < fuel →
      ∃ log', __ns16550_poll u fuel
          ⟨(pairs.map (fun pr => [pr.1, pr.2])).flatten ++ lN :: 0xff :: rest, log0⟩ =
        some ⟨pairs.length, false, [u.timeout_ms], ⟨rest, log'⟩⟩) ∧
    (∀ (u : Ns16550) (fuel : Nat) (s : ScriptState) (r : PollResult),
      u.intr_works = false → __ns16550_poll u fuel s = some r →
      r.rearms = [u.timeout_ms]) := by
  constructor
  · intro u pairs lN rest log0 fuel h hi hp hl hf
    obtain ⟨log', hloop⟩ := poll_rx_loop_script pairs u lN rest log0 fuel h hp hl hf
    refine ⟨log', ?_⟩
    unfold __ns16550_poll
    rw [if_neg (by simp [hi]), hloop]
    rfl
  · intro u fuel s r hi hr
    unfold __ns16550_poll at hr
    rw [if_neg (by simp [hi])] at hr
    cases hl : ns16550_poll_rx_loop u fuel s with
    | none => rw [hl] at hr; exact absurd hr (by simp)
    | some v =>
        rw [hl] at hr
        obtain ⟨n, s1, ab⟩ := v
        cases ab with
        | true =>
            simp at hr
            subst hr
            rfl
        | false =>
            by_cases ht : (ns_read_reg u s1 UART_LSR).1 &&& UART_LSR_THRE ≠ 0
            · simp [ht] at hr
              subst hr
              rfl
            · simp [ht] at hr
              subst hr
              rfl

/-- C5 witness: two data-ready bytes, then a vanished-hardware response:
two receive callbacks, no transmit check, one rearm at 7 ms, with the
trailing script byte unconsumed. -/
theorem claim_C5_witness :
    ∃ log', __ns16550_poll { exUart with timeout_ms := 7 } 3
        ⟨[1, 0, 1, 0, 1, 0xff, 9], []⟩ = some ⟨2, false, [7], ⟨[9], log'⟩⟩ := by
  obtain ⟨log', h⟩ := claim_C5_poll_counts.1 { exUart with timeout_ms := 7 }
    [(1, 0), (1, 0)] 1 [9] [] 3 rfl rfl (by decide) (by decide) (by decide)
  exact ⟨log', h⟩

/-- Casting a byte to C char and storing it as an unsigned byte round
trips. -/
theorem byte_roundtrip (n : Nat) : (((n % 256 : Nat) : Int).emod 256).toNat = n % 256 := by
  have h : ((n % 256 : Nat) : Int).emod 256 = ((n % 256 : Nat) : Int) := by
    refine Int.emod_eq_of_lt (by positivity) ?_
    exact_mod_cast Nat.mod_lt _ (by norm_num)
  rw [h]
  exact Int.toNat_natCast _

/-- The outcome of check_existence equals the claim-side probe predicate:
presumed present above the port-I/O boundary, else the IER low-nibble
round-trip and the loopback modem-status signature, judged on the
scripted responses. -/
theorem check_existence_present (st : St) (h : st.uart.remapped_io_base = none) :
    (check_existence st).1 = probe_present_spec st.uart st.dev.script := by
  by_cases hge : st.uart.io_base ≥ 0x10000
  · unfold check_existence probe_present_spec
    simp [hge]
  · rcases st with ⟨u, ⟨scr, log⟩, p⟩
    simp only at h hge
    match scr with
    | [] =>
        by_cases h1 : (0 : Nat) &&& 0x0f = 0 <;>
          simp [check_existence, probe_present_spec, St.rd, St.wr, ns_read_reg, ns_write_reg,
            pci_serial_early_init_off, hge, h,
            pci_serial_early_init_uart, pci_serial_early_init_dev]
    | [a] =>
        simp [check_existence, probe_present_spec, St.rd, St.wr, ns_read_reg, ns_write_reg,
          hge, h, pci_serial_early_init_uart, pci_serial_early_init_dev]
    | [a, b] =>
        by_cases h1 : b % 256 &&& 0x0f = 0 <;>
          simp [check_existence, probe_present_spec, St.rd, St.wr, ns_read_reg, ns_write_reg,
            hge, h, h1, pci_serial_early_init_uart, pci_serial_early_init_dev]
    | [a, b, c] =>
        by_cases h1 : b % 256 &&& 0x0f = 0 <;>
        by_cases h2 : c % 256 &&& 0x0f = 0x0F <;>
          simp [check_existence, probe_present_spec, St.rd, St.wr, ns_read_reg, ns_write_reg,
            hge, h, h1, h2, pci_serial_early_init_uart, pci_serial_early_init_dev]
    | a :: b :: c :: d :: rest =>
        by_cases h1 : b % 256 &&& 0x0f = 0 <;>
        by_cases h2 : c % 256 &&& 0x0f = 0x0F <;>
          simp [check_existence, probe_present_spec, St.rd, St.wr, ns_read_reg, ns_write_reg,
            hge, h, h1, h2, pci_serial_early_init_uart, pci_serial_early_init_dev]

/-- The C char cast of a natural already reduced mod 256, stored back as
an unsigned byte. -/
theorem byte_roundtrip2 (n : Nat) : (((n : Int) % 256).emod 256).toNat = n % 256 := by
  have hc : ((n : Int) % 256) = ((n % 256 : Nat) : Int) := by
    rw [Int.natCast_mod]
    norm_num
  rw [hc]
  exact byte_roundtrip n

/-- The bus-transaction trace of a port-mapped identification probe is
exactly probe_log_spec appended to the prior log: in particular the saved
IER value is rewritten whether or not the round-trip succeeds. -/
theorem check_existence_log (st : St) (h : st.uart.remapped_io_base = none)
    (hio : st.uart.io_base < 0x10000) :
    (check_existence st).2.dev.log = st.dev.log ++ probe_log_spec st.uart st.dev.script := by
  have hge : ¬ st.uart.io_base ≥ 0x10000 := by omega
  rcases st with ⟨u, ⟨scr, log⟩, p⟩
  simp only at h hge
  match scr with
  | [] =>
      simp +decide [check_existence, probe_log_spec, St.rd, St.wr, ns_read_reg, ns_write_reg,
        byte_roundtrip2, hge, h, pci_serial_early_init_uart, pci_serial_early_init_dev]
  | [a] =>
      simp +decide [check_existence, probe_log_spec, St.rd, St.wr, ns_read_reg, ns_write_reg,
        byte_roundtrip2, hge, h, pci_serial_early_init_uart, pci_serial_early_init_dev]
  | [a, b] =>
      by_cases h1 : b % 256 &&& 0x0f = 0 <;>
        simp +decide [check_existence, probe_log_spec, St.rd, St.wr, ns_read_reg, ns_write_reg,
          byte_roundtrip2, hge, h, h1, pci_serial_early_init_uart, pci_serial_early_init_dev]
  | [a, b, c] =>
      by_cases h1 : b % 256 &&& 0x0f = 0 <;>
      by_cases h2 : c % 256 &&& 0x0f = 0x0F <;>
        simp +decide [check_existence, probe_log_spec, St.rd, St.wr, ns_read_reg, ns_write_reg,
          byte_roundtrip2, hge, h, h1, h2, pci_serial_early_init_uart, pci_serial_early_init_dev]
  | a :: b :: c :: d :: rest =>
      by_cases h1 : b % 256 &&& 0x0f = 0 <;>
      by_cases h2 : c % 256 &&& 0x0f = 0x0F <;>
        simp +decide [check_existence, probe_log_spec, St.rd, St.wr, ns_read_reg, ns_write_reg,
          byte_roundtrip2, hge, h, h1, h2, pci_serial_early_init_uart, pci_serial_early_init_dev]

/-- The validation tail as one boolean: all four sanity checks pass and
the existence probe succeeds. -/
theorem parse_tail_eq (st : St) :
    (ns16550_parse_tail st).2 =
      (decide ¬(st.uart.baud ≠ BAUD_AUTO ∧ (st.uart.baud < 1200 ∨ st.uart.baud > 115200)) &&
       decide ¬(st.uart.data_bits < 5 ∨ st.uart.data_bits > 8) &&
       decide ¬(st.uart.stop_bits < 1 ∨ st.uart.stop_bits > 2) &&
       decide ¬(st.uart.io_base = 0) &&
       (check_existence st).1) := by
  unfold ns16550_parse_tail
  rcases hck : check_existence st with ⟨ok, st'⟩
  dsimp only []
  split_ifs <;> simp_all

/-- The validation tail registers exactly when the claim-side registration
conditions hold. -/
theorem parse_tail_registers (st : St) (h : st.uart.remapped_io_base = none) :
    (ns16550_parse_tail st).2 = registration_conditions st := by
  have hce := check_existence_present st h
  rw [parse_tail_eq]
  unfold registration_conditions
  rw [← hce]
  congr 1
  simp only [← Bool.decide_and, ← Bool.decide_or]
  rw [decide_eq_decide]
  simp only [BAUD_AUTO]
  omega

/-- C3 (amended): ns16550_parse_port_config registers exactly when the
parsing phase reaches the validation label (no early abort from an empty
configuration without probed defaults, a failed pci/amt scan, or
malformed PCI coordinates) and every validation passes - baud auto or in
[1200,115200], data_bits in [5,8], stop_bits in {1,2}, nonzero io_base,
and the identification probe (IER low-nibble round-trip then loopback
signature 0x9, skipped above the port-I/O boundary); the probe always
rewrites the saved IER value whatever its outcome. -/
theorem claim_C3_registration :
    (∀ (parsePci : List Char → Option ((Nat × Nat × Nat) × List Char)) (idx : Nat)
       (conf : List Char) (st : St),
      (ns16550_parse_fields parsePci idx conf st).1.uart.remapped_io_base = none →
      ((ns16550_parse_port_config parsePci idx conf st).2 = true ↔
        ((ns16550_parse_fields parsePci idx conf st).2 = true ∧
         registration_conditions (ns16550_parse_fields parsePci idx conf st).1 = true))) ∧
    (∀ st : St, st.uart.remapped_io_base = none → st.uart.io_base < 0x10000 →
      (check_existence st).2.dev.log = st.dev.log ++ probe_log_spec st.uart st.dev.script) := by
  constructor
  · intro parsePci idx conf st h
    unfold ns16550_parse_port_config
    rcases hpf : ns16550_parse_fields parsePci idx conf st with ⟨st', reached⟩
    rw [hpf] at h
    dsimp only [] at h ⊢
    cases reached with
    | false => simp
    | true =>
        rw [if_pos rfl]
        rw [parse_tail_registers st' h]
        simp
  · exact check_existence_log

/-- C3 witness: the probe trace instantiated at the concrete state exSt
(round-trip succeeds, so the loopback transactions follow the IER
restore). -/
theorem claim_C3_witness :
    (check_existence exSt).2.dev.log = [] ++ probe_log_spec exUart [0x00, 0x00, 0x0F, 0x90] :=
  claim_C3_registration.2 exSt rfl (by decide)

/-- C3 counterexample: with malformed trailing PCI coordinates the parse
aborts before validation, leaving a state on which every stated
validation passes, yet nothing is registered - the claimed equivalence
fails as stated. -/
theorem claim_C3_counterexample :
    (ns16550_parse_port_config noPciParse 0 ("1200,8n1,0x3f8,4,bad".data) exSt).2 = false ∧
    registration_conditions
      (ns16550_parse_port_config noPciParse 0 ("1200,8n1,0x3f8,4,bad".data) exSt).1 = true := by
  constructor
  · decide
  · decide

/-- A 32-bit config write leaves every other function untouched. -/
theorem pci_conf_write32_ne (p : PciBus) (b d f off v b' d' f' : Nat)
    (h : ¬(b' = b ∧ d' = d ∧ f' = f)) :
    (pci_conf_write32 p b d f off v) b' d' f' = p b' d' f' := by
  unfold pci_conf_write32
  split
  · unfold pciUpdate
    dsimp only []
    rw [if_neg h]
  · rfl

/-- A 32-bit config write changes at most the stored BAR values: every
other field of every function is preserved. -/
theorem pci_conf_write32_ro (p : PciBus) (b d f off v b' d' f' : Nat) :
    ((pci_conf_write32 p b d f off v) b' d' f').header_type = (p b' d' f').header_type ∧
    ((pci_conf_write32 p b d f off v) b' d' f').class_device = (p b' d' f').class_device ∧
    ((pci_conf_write32 p b d f off v) b' d' f').barMask = (p b' d' f').barMask ∧
    ((pci_conf_write32 p b d f off v) b' d' f').barHard = (p b' d' f').barHard ∧
    ((pci_conf_write32 p b d f off v) b' d' f').intr_pin = (p b' d' f').intr_pin ∧
    ((pci_conf_write32 p b d f off v) b' d' f').intr_line = (p b' d' f').intr_line ∧
    ((pci_conf_write32 p b d f off v) b' d' f').command = (p b' d' f').command := by
  unfold pci_conf_write32 pciUpdate
  split
  · dsimp only []
    split
    · rename_i he
      obtain ⟨rfl, rfl, rfl⟩ := he
      exact ⟨rfl, rfl, rfl, rfl, rfl, rfl, rfl⟩
    · exact ⟨rfl, rfl, rfl, rfl, rfl, rfl, rfl⟩
  · exact ⟨rfl, rfl, rfl, rfl, rfl, rfl, rfl⟩

/-- The bitwise absorption behind BAR write idempotence. -/
theorem bar_mask_absorb (a m h : Nat) : ((a &&& m ||| h) &&& m ||| h) = (a &&& m ||| h) := by
  apply Nat.eq_of_testBit_eq
  intro i
  simp only [Nat.testBit_lor, Nat.testBit_land]
  cases a.testBit i <;> cases m.testBit i <;> cases h.testBit i <;> rfl

/-- 32-bit config writes preserve configuration-space well-formedness. -/
theorem wf_write32 (p : PciBus) (hw : p.wf) (b d f off v : Nat) :
    (pci_conf_write32 p b d f off v).wf := by
  intro b' d' f'
  by_cases he : b' = b ∧ d' = d ∧ f' = f
  · obtain ⟨rfl, rfl, rfl⟩ := he
    unfold pci_conf_write32
    split
    · unfold pciUpdate
      dsimp only []
      rw [if_pos ⟨rfl, rfl, rfl⟩]
      intro i
      dsimp only []
      split
      · rename_i hj
        rw [hj]
        have hM : (4294967296 : Nat) = 2 ^ 32 := by norm_num
        refine ⟨?_, (hw b' d' f' _).2.1, bar_mask_absorb _ _ _⟩
        rw [hM]
        have h1 : v % 4294967296 &&&
            (p b' d' f').barMask ((off - PCI_BASE_ADDRESS_0) / 4) < 2 ^ 32 :=
          lt_of_le_of_lt Nat.and_le_left (by
            rw [← hM]
            exact Nat.mod_lt v (by norm_num))
        have h2 : (p b' d' f').barHard ((off - PCI_BASE_ADDRESS_0) / 4) < 2 ^ 32 := by
          rw [← hM]
          exact (hw b' d' f' ((off - PCI_BASE_ADDRESS_0) / 4)).2.1
        have := Nat.bitwise_lt_two_pow (f := or) h1 h2
        simpa [Nat.lor] using this
      · exact hw b' d' f' i
    · exact hw b' d' f'
  · rw [pci_conf_write32_ne p b d f off v b' d' f' he]
    exact hw b' d' f'

/-- Examining one function leaves every other function untouched. -/
theorem pci_examine_ne (p : PciBus) (b d f i b' d' f' : Nat)
    (h : ¬(b' = b ∧ d' = d ∧ f' = f)) :
    (pci_examine p b d f i).1 b' d' f' = p b' d' f' := by
  unfold pci_examine
  dsimp only []
  split
  · split
    · rfl
    · split
      · exact (pci_conf_write32_ne _ _ _ _ _ _ _ _ _ h).trans
          (pci_conf_write32_ne _ _ _ _ _ _ _ _ _ h)
      · exact (pci_conf_write32_ne _ _ _ _ _ _ _ _ _ h).trans
          (pci_conf_write32_ne _ _ _ _ _ _ _ _ _ h)
  · split
    · rfl
    · rfl

/-- Examination preserves every non-BAR field of every function. -/
theorem pci_examine_ro (p : PciBus) (b d f i b' d' f' : Nat) :
    ((pci_examine p b d f i).1 b' d' f').header_type = (p b' d' f').header_type ∧
    ((pci_examine p b d f i).1 b' d' f').class_device = (p b' d' f').class_device ∧
    ((pci_examine p b d f i).1 b' d' f').barMask = (p b' d' f').barMask ∧
    ((pci_examine p b d f i).1 b' d' f').barHard = (p b' d' f').barHard ∧
    ((pci_examine p b d f i).1 b' d' f').intr_pin = (p b' d' f').intr_pin ∧
    ((pci_examine p b d f i).1 b' d' f').intr_line = (p b' d' f').intr_line := by
  unfold pci_examine
  dsimp only []
  split
  · split
    · exact ⟨rfl, rfl, rfl, rfl, rfl, rfl⟩
    · have hA := pci_conf_write32_ro (pci_conf_write32 p b d f PCI_BASE_ADDRESS_0 0xffffffff)
        b d f (PCI_BASE_ADDRESS_0 + i * 4)
        (pci_conf_read32 p b d f (PCI_BASE_ADDRESS_0 + i * 4)) b' d' f'
      have hB := pci_conf_write32_ro p b d f PCI_BASE_ADDRESS_0 0xffffffff b' d' f'
      split
      · exact ⟨hA.1.trans hB.1, hA.2.1.trans hB.2.1, hA.2.2.1.trans hB.2.2.1,
          hA.2.2.2.1.trans hB.2.2.2.1, hA.2.2.2.2.1.trans hB.2.2.2.2.1,
          hA.2.2.2.2.2.1.trans hB.2.2.2.2.2.1⟩
      · exact ⟨hA.1.trans hB.1, hA.2.1.trans hB.2.1, hA.2.2.1.trans hB.2.2.1,
          hA.2.2.2.1.trans hB.2.2.2.1, hA.2.2.2.2.1.trans hB.2.2.2.2.1,
          hA.2.2.2.2.2.1.trans hB.2.2.2.2.2.1⟩
  · split
    · exact ⟨rfl, rfl, rfl, rfl, rfl, rfl⟩
    · exact ⟨rfl, rfl, rfl, rfl, rfl, rfl⟩

/-- Examination preserves configuration-space well-formedness. -/
theorem pci_examine_wf (p : PciBus) (hw : p.wf) (b d f i : Nat) :
    ((pci_examine p b d f i).1).wf := by
  unfold pci_examine
  dsimp only []
  split
  · split
    · exact hw
    · split
      · exact wf_write32 _ (wf_write32 _ hw _ _ _ _ _) _ _ _ _ _
      · exact wf_write32 _ (wf_write32 _ hw _ _ _ _ _) _ _ _ _ _
  · split
    · exact hw
    · exact hw

/-- With target BAR index 0 on a well-formed bus, one examination leaves
every stored BAR of every function exactly as it was: the all-ones sizing
write lands in the first BAR and the restore write puts the saved value
back there. -/
theorem pci_examine_bars0 (p : PciBus) (hw : p.wf) (b d f : Nat) :
    ∀ b' d' f' j, ((pci_examine p b d f 0).1 b' d' f').bars j = (p b' d' f').bars j := by
  intro b' d' f' j
  by_cases he : b' = b ∧ d' = d ∧ f' = f
  · obtain ⟨rfl, rfl, rfl⟩ := he
    unfold pci_examine
    dsimp only []
    split
    · split
      · rfl
      · have hbar : pci_conf_read32 p b' d' f' (PCI_BASE_ADDRESS_0 + 0 * 4) =
            (p b' d' f').bars 0 := by
          unfold pci_conf_read32
          rw [if_pos (by unfold PCI_BASE_ADDRESS_0; omega)]
          have h0 : (PCI_BASE_ADDRESS_0 + 0 * 4 - PCI_BASE_ADDRESS_0) / 4 = 0 := by
            unfold PCI_BASE_ADDRESS_0
            omega
          rw [h0, Nat.mod_eq_of_lt (hw b' d' f' 0).1]
        have hself1 := pci_conf_write32_bar_self p b' d' f' 0 0xffffffff (by omega)
        have hzero : PCI_BASE_ADDRESS_0 + 0 * 4 = PCI_BASE_ADDRESS_0 := by omega
        have hself2 := pci_conf_write32_bar_self
          (pci_conf_write32 p b' d' f' (PCI_BASE_ADDRESS_0 + 0 * 4) 0xffffffff)
          b' d' f' 0 (pci_conf_read32 p b' d' f' (PCI_BASE_ADDRESS_0 + 0 * 4)) (by omega)
        split
        · show ((pci_conf_write32 (pci_conf_write32 p b' d' f' PCI_BASE_ADDRESS_0 0xffffffff)
            b' d' f' (PCI_BASE_ADDRESS_0 + 0 * 4)
            (pci_conf_read32 p b' d' f' (PCI_BASE_ADDRESS_0 + 0 * 4))) b' d' f').bars j = _
          rw [← hzero, hself2]
          dsimp only []
          have hro := pci_conf_write32_ro p b' d' f' (PCI_BASE_ADDRESS_0 + 0 * 4)
            0xffffffff b' d' f'
          by_cases hj : j = 0
          · subst hj
            rw [if_pos rfl, hbar, hro.2.2.1, hro.2.2.2.1,
              Nat.mod_eq_of_lt (hw b' d' f' 0).1]
            exact (hw b' d' f' 0).2.2
          · rw [if_neg hj, ← hzero]
            rw [hself1]
            dsimp only []
            rw [if_neg hj]
        · show ((pci_conf_write32 (pci_conf_write32 p b' d' f' PCI_BASE_ADDRESS_0 0xffffffff)
            b' d' f' (PCI_BASE_ADDRESS_0 + 0 * 4)
            (pci_conf_read32 p b' d' f' (PCI_BASE_ADDRESS_0 + 0 * 4))) b' d' f').bars j = _
          rw [← hzero, hself2]
          dsimp only []
          have hro := pci_conf_write32_ro p b' d' f' (PCI_BASE_ADDRESS_0 + 0 * 4)
            0xffffffff b' d' f'
          by_cases hj : j = 0
          · subst hj
            rw [if_pos rfl, hbar, hro.2.2.1, hro.2.2.2.1,
              Nat.mod_eq_of_lt (hw b' d' f' 0).1]
            exact (hw b' d' f' 0).2.2
          · rw [if_neg hj, ← hzero]
            rw [hself1]
            dsimp only []
            rw [if_neg hj]
    · split
      · rfl
      · rfl
  · rw [pci_examine_ne _ _ _ _ _ _ _ _ he]

/-- With target BAR index 0 on a well-formed bus the whole scan leaves
every stored BAR of every function unchanged. -/
theorem pci_scan_bars0 :
    ∀ (fuel : Nat) (p : PciBus) (b d f : Nat), p.wf →
      ∀ b' d' f' j, ((pci_scan fuel p 0 b d f).1 b' d' f').bars j = (p b' d' f').bars j := by
  intro fuel
  induction fuel with
  | zero => intro p b d f _ b' d' f' j; rfl
  | succ fuel ih =>
      intro p b d f hw b' d' f' j
      unfold pci_scan
      split
      · rfl
      · rcases hex : pci_examine p b d f 0 with ⟨p1, nextf, r⟩
        have hbars : ∀ b2 d2 f2 j2, (p1 b2 d2 f2).bars j2 = (p b2 d2 f2).bars j2 := by
          intro b2 d2 f2 j2
          have hx := pci_examine_bars0 p hw b d f b2 d2 f2 j2
          rw [hex] at hx
          exact hx
        have hwf1 : p1.wf := by
          have hx := pci_examine_wf p hw b d f 0
          rw [hex] at hx
          exact hx
        cases r with
        | some acc =>
            obtain ⟨bar, irq⟩ := acc
            exact hbars b' d' f' j
        | none =>
            show ((if nextf < 8 then pci_scan fuel p1 0 b d nextf
                   else if d + 1 < 0x20 then pci_scan fuel p1 0 b (d + 1) 0
                   else pci_scan fuel p1 0 (b + 1) 0 0).1 b' d' f').bars j =
              (p b' d' f').bars j
            split
            · exact (ih p1 b d nextf hwf1 b' d' f' j).trans (hbars b' d' f' j)
            · split
              · exact (ih p1 b (d + 1) 0 hwf1 b' d' f' j).trans (hbars b' d' f' j)
              · exact (ih p1 (b + 1) 0 0 hwf1 b' d' f' j).trans (hbars b' d' f' j)

/-- C2 (amended): for target BAR index 0, pci_uart_config undoes its
temporary sizing writes completely - after the scan, every BAR register
of every function (examined or not, rejected or accepted) holds its
original value, on any well-formed bus.  The counterexample shows the
restoration fails for nonzero target indices, whose sizing write lands in
BAR 0 while the restore lands in the target BAR. -/
theorem claim_C2_bar_restore :
    ∀ (p : PciBus) (u : Ns16550) (skip : Bool), p.wf →
      ∀ b d f j, (((pci_uart_config u skip 0 p).2.2) b d f).bars j = (p b d f).bars j := by
  intro p u skip hw b d f j
  unfold pci_uart_config
  rcases hs : pci_scan pci_scan_fuel p 0 (if skip then 1 else 0) 0 0 with ⟨p', r⟩
  have hb : ∀ b' d' f' j', (p' b' d' f').bars j' = (p b' d' f').bars j' := by
    intro b' d' f' j'
    have hx := pci_scan_bars0 pci_scan_fuel p (if skip then 1 else 0) 0 0 hw b' d' f' j'
    rw [hs] at hx
    exact hx
  cases r with
  | some acc =>
      obtain ⟨b1, d1, f1, bar, irq⟩ := acc
      exact hb b d f j
  | none =>
      by_cases hsk : skip = true
      · subst hsk
        show (((if ¬true = true then ((-1 : Int), u, p') else _).2.2) b d f).bars j = _
        rw [if_neg (by decide)]
        exact hb b d f j
      · have hsk' : skip = false := by
          cases skip
          · rfl
          · exact absurd rfl hsk
        subst hsk'
        show (((if ¬false = true then ((-1 : Int), u, p') else _).2.2) b d f).bars j = _
        rw [if_pos (by decide)]
        exact hb b d f j

/-- C2 counterexample: with target BAR index 1 the scan examines and
rejects the function at (1,0,0) - serial class, I/O-space target BAR, but
16-byte sizing - and leaves its first BAR holding the sizing residue
0xfffffff1 instead of the original 0xe001. -/
theorem claim_C2_counterexample :
    (exBus 1 0 0).class_device = 0x0700 ∧
    fnAccept (exBus 1 0 0) 1 = false ∧
    (exBus 1 0 0).bars 0 = 0xe001 ∧
    ((pci_uart_config exUart true 1 exBus).2.2 1 0 0).bars 0 = 0xfffffff1 := by
  refine ⟨by decide, by decide, by decide, by decide⟩

/-- The demonstration bus is well-formed. -/
theorem exBus_wf : PciBus.wf exBus := by
  intro b d f
  unfold exBus
  split
  · intro i
    unfold fnA
    dsimp only []
    by_cases h0 : i = 0
    · subst h0
      exact ⟨by norm_num, by norm_num, by decide⟩
    · by_cases h1 : i = 1
      · subst h1
        exact ⟨by norm_num, by norm_num, by decide⟩
      · have h2 : ¬ i ≤ 1 := by omega
        simp only [if_neg h0, if_neg h1, if_neg h2]
        exact ⟨by norm_num, by norm_num, by simp⟩
  · split
    · intro i
      unfold fnB
      dsimp only []
      by_cases h0 : i = 0
      · subst h0
        exact ⟨by norm_num, by norm_num, by decide⟩
      · by_cases h1 : i = 1
        · subst h1
          exact ⟨by norm_num, by norm_num, by decide⟩
        · have h2 : ¬ i ≤ 1 := by omega
          simp only [if_neg h0, if_neg h1, if_neg h2]
          exact ⟨by norm_num, by norm_num, by simp⟩
    · intro i
      unfold absentFn
      dsimp only []
      exact ⟨by norm_num, by norm_num, by simp⟩

/-- C2 witness: on the same demonstration bus with target index 0 the
examined-and-rejected function keeps its original first BAR. -/
theorem claim_C2_witness :
    ((pci_uart_config exUart true 0 exBus).2.2 1 0 0).bars 0 = (exBus 1 0 0).bars 0 ∧
    (exBus 1 0 0).bars 0 = 0xe001 :=
  ⟨claim_C2_bar_restore exBus exUart true exBus_wf 1 0 0 0, by decide⟩

/-- The class-code config read. -/
theorem read16_class (p : PciBus) (b d f : Nat) :
    pci_conf_read16 p b d f PCI_CLASS_DEVICE = (p b d f).class_device % 65536 := by
  unfold pci_conf_read16
  rw [if_pos rfl]

/-- The header-type config read. -/
theorem read16_header (p : PciBus) (b d f : Nat) :
    pci_conf_read16 p b d f PCI_HEADER_TYPE = (p b d f).header_type % 65536 := by
  unfold pci_conf_read16
  rw [if_neg (by decide), if_pos rfl]

/-- The interrupt-pin config read. -/
theorem read8_pin (p : PciBus) (b d f : Nat) :
    pci_conf_read8 p b d f PCI_INTERRUPT_PIN = (p b d f).intr_pin % 256 := by
  unfold pci_conf_read8
  rw [if_pos rfl]

/-- The interrupt-line config read. -/
theorem read8_line (p : PciBus) (b d f : Nat) :
    pci_conf_read8 p b d f PCI_INTERRUPT_LINE = (p b d f).intr_line % 256 := by
  unfold pci_conf_read8
  rw [if_neg (by decide), if_pos rfl]

/-- A config read of a valid BAR offset returns the stored value as a
32-bit quantity. -/
theorem read32_bar (p : PciBus) (b d f i : Nat) (hi : i ≤ 5) :
    pci_conf_read32 p b d f (PCI_BASE_ADDRESS_0 + i * 4) = (p b d f).bars i % 4294967296 := by
  unfold pci_conf_read32
  rw [if_pos (by unfold PCI_BASE_ADDRESS_0; omega)]
  have h0 : (PCI_BASE_ADDRESS_0 + i * 4 - PCI_BASE_ADDRESS_0) / 4 = i := by
    unfold PCI_BASE_ADDRESS_0
    omega
  rw [h0]

/-- The function index the examination steps to is the pure stepping rule
on the original configuration space. -/
theorem pci_examine_nextf (p : PciBus) (b d f i : Nat) :
    (pci_examine p b d f i).2.1 = pci_nextf p b d f := by
  unfold pci_examine pci_nextf
  dsimp only []
  by_cases hser : pci_conf_read16 p b d f PCI_CLASS_DEVICE = 0x0700 ∨
      pci_conf_read16 p b d f PCI_CLASS_DEVICE = 0x0702 ∨
      pci_conf_read16 p b d f PCI_CLASS_DEVICE = 0x0780
  · have hne : ¬(pci_conf_read16 p b d f PCI_CLASS_DEVICE = 0xffff ∧ f = 0) := by
      rintro ⟨h1, _⟩
      rcases hser with h | h | h <;> omega
    rw [if_pos hser, if_neg hne]
    split
    · rfl
    · split <;> rfl
  · rw [if_neg hser]
    by_cases h0xffff : pci_conf_read16 p b d f PCI_CLASS_DEVICE = 0xffff
    · rw [if_pos h0xffff]
      by_cases hf : f = 0
      · rw [if_pos (And.intro h0xffff hf)]
        dsimp only []
        rw [if_pos hf]
      · have hne : ¬(pci_conf_read16 p b d f PCI_CLASS_DEVICE = 0xffff ∧ f = 0) :=
          fun hc => hf hc.2
        rw [if_neg hne]
        dsimp only []
        rw [if_neg hf]
    · have hne : ¬(pci_conf_read16 p b d f PCI_CLASS_DEVICE = 0xffff ∧ f = 0) :=
        fun hc => h0xffff hc.1
      rw [if_neg h0xffff, if_neg hne]

/-- The BAR-0 value after the sizing write of all-ones. -/
theorem sizing_len (p : PciBus) (b d f : Nat) :
    pci_conf_read32 (pci_conf_write32 p b d f PCI_BASE_ADDRESS_0 0xffffffff) b d f
        PCI_BASE_ADDRESS_0 =
      ((0xffffffff &&& (p b d f).barMask 0) ||| (p b d f).barHard 0) % 4294967296 := by
  have h0 : PCI_BASE_ADDRESS_0 = PCI_BASE_ADDRESS_0 + 0 * 4 := by omega
  rw [h0, read32_bar _ b d f 0 (by omega),
    pci_conf_write32_bar_self p b d f 0 0xffffffff (by omega)]
  dsimp only []
  rw [if_pos rfl]

/-- The match result of one examination is exactly the fnAccept predicate
on the function's original header, paired with the recorded BAR and IRQ. -/
theorem pci_examine_accept (p : PciBus) (b d f i : Nat) (hi : i ≤ 5) :
    (pci_examine p b d f i).2.2 =
      if fnAccept (p b d f) i then some (fnBar (p b d f) i, fnIrq (p b d f)) else none := by
  unfold pci_examine
  dsimp only []
  by_cases hser : pci_conf_read16 p b d f PCI_CLASS_DEVICE = 0x0700 ∨
      pci_conf_read16 p b d f PCI_CLASS_DEVICE = 0x0702 ∨
      pci_conf_read16 p b d f PCI_CLASS_DEVICE = 0x0780
  · rw [if_pos hser]
    rw [read16_class] at hser
    by_cases hio : pci_conf_read32 p b d f (PCI_BASE_ADDRESS_0 + i * 4) &&&
        PCI_BASE_ADDRESS_SPACE_IO = 0
    · rw [if_pos hio]
      rw [read32_bar p b d f i hi] at hio
      have hne : ¬(fnAccept (p b d f) i = true) := by
        unfold fnAccept
        simp only [Bool.and_eq_true, Bool.or_eq_true, decide_eq_true_eq, or_assoc]
        rintro ⟨⟨_, h2⟩, _⟩
        exact h2 hio
      rw [if_neg hne]
    · rw [if_neg hio]
      rw [read32_bar p b d f i hi] at hio
      by_cases hsz : ((0xffffffff &&& (p b d f).barMask 0) ||| (p b d f).barHard 0) %
          4294967296 &&& 0xffff = 0xfff9
      · have hlen : ¬(pci_conf_read32 (pci_conf_write32 p b d f PCI_BASE_ADDRESS_0 0xffffffff)
            b d f PCI_BASE_ADDRESS_0 &&& 0xffff ≠ 0xfff9) := by
          rw [sizing_len]
          exact fun h => h hsz
        rw [if_neg hlen]
        have hacc : fnAccept (p b d f) i = true := by
          unfold fnAccept
          simp only [Bool.and_eq_true, Bool.or_eq_true, decide_eq_true_eq, or_assoc]
          exact ⟨⟨hser, hio⟩, hsz⟩
        rw [hacc, if_pos rfl]
        have hpin : pci_conf_read8 (pci_conf_write32
              (pci_conf_write32 p b d f PCI_BASE_ADDRESS_0 0xffffffff) b d f
              (PCI_BASE_ADDRESS_0 + i * 4)
              (pci_conf_read32 p b d f (PCI_BASE_ADDRESS_0 + i * 4))) b d f
            PCI_INTERRUPT_PIN = (p b d f).intr_pin % 256 := by
          rw [read8_pin,
            (pci_conf_write32_ro (pci_conf_write32 p b d f PCI_BASE_ADDRESS_0 0xffffffff)
              b d f (PCI_BASE_ADDRESS_0 + i * 4)
              (pci_conf_read32 p b d f (PCI_BASE_ADDRESS_0 + i * 4)) b d f).2.2.2.2.1,
            (pci_conf_write32_ro p b d f PCI_BASE_ADDRESS_0 0xffffffff b d f).2.2.2.2.1]
        have hline : pci_conf_read8 (pci_conf_write32
              (pci_conf_write32 p b d f PCI_BASE_ADDRESS_0 0xffffffff) b d f
              (PCI_BASE_ADDRESS_0 + i * 4)
              (pci_conf_read32 p b d f (PCI_BASE_ADDRESS_0 + i * 4))) b d f
            PCI_INTERRUPT_LINE = (p b d f).intr_line % 256 := by
          rw [read8_line,
            (pci_conf_write32_ro (pci_conf_write32 p b d f PCI_BASE_ADDRESS_0 0xffffffff)
              b d f (PCI_BASE_ADDRESS_0 + i * 4)
              (pci_conf_read32 p b d f (PCI_BASE_ADDRESS_0 + i * 4)) b d f).2.2.2.2.2.1,
            (pci_conf_write32_ro p b d f PCI_BASE_ADDRESS_0 0xffffffff b d f).2.2.2.2.2.1]
        rw [hpin, hline, read32_bar p b d f i hi]
        unfold fnBar fnIrq
        rfl
      · have hlen : pci_conf_read32 (pci_conf_write32 p b d f PCI_BASE_ADDRESS_0 0xffffffff)
            b d f PCI_BASE_ADDRESS_0 &&& 0xffff ≠ 0xfff9 := by
          rw [sizing_len]
          exact hsz
        rw [if_pos hlen]
        have hne : ¬(fnAccept (p b d f) i = true) := by
          unfold fnAccept
          simp only [Bool.and_eq_true, Bool.or_eq_true, decide_eq_true_eq, or_assoc]
          rintro ⟨_, h3⟩
          exact hsz h3
        rw [if_neg hne]
  · rw [if_neg hser]
    rw [read16_class] at hser
    have hne : ¬(fnAccept (p b d f) i = true) := by
      unfold fnAccept
      simp only [Bool.and_eq_true, Bool.or_eq_true, decide_eq_true_eq, or_assoc]
      rintro ⟨⟨hd, _⟩, _⟩
      exact hser hd
    rw [if_neg hne]
    split <;> rfl

/-- Unfolding of the enumeration index. -/
theorem lexIdx_def (b d f : Nat) : lexIdx (b, d, f) = b * 256 + d * 8 + f := rfl

/-- The stepping rule either advances to the next function or skips to 8. -/
theorem pci_nextf_cases (p : PciBus) (b d f : Nat) :
    pci_nextf p b d f = f + 1 ∨ pci_nextf p b d f = 8 := by
  unfold pci_nextf
  dsimp only []
  split
  · right
    rfl
  · split
    · left
      rfl
    · right
      rfl

/-- At a nonzero function index the stepping rule always advances. -/
theorem pci_nextf_ne0 (p : PciBus) (b d f : Nat) (hf : f ≠ 0) :
    pci_nextf p b d f = f + 1 := by
  unfold pci_nextf
  dsimp only []
  have hne : ¬(pci_conf_read16 p b d f PCI_CLASS_DEVICE = 0xffff ∧ f = 0) :=
    fun hc => hf hc.2
  rw [if_neg hne, if_pos (Or.inl hf)]

/-- Advancing past function 0 means the device is present and declares
itself multi-function. -/
theorem pci_nextf_lt8_at0 (p : PciBus) (b d : Nat) (h : pci_nextf p b d 0 < 8) :
    pci_conf_read16 p b d 0 PCI_HEADER_TYPE &&& 0x80 ≠ 0 ∧
    pci_conf_read16 p b d 0 PCI_CLASS_DEVICE ≠ 0xffff := by
  unfold pci_nextf at h
  dsimp only [] at h
  by_cases hc : pci_conf_read16 p b d 0 PCI_CLASS_DEVICE = 0xffff
  · rw [if_pos (And.intro hc rfl)] at h
    omega
  · have hne : ¬(pci_conf_read16 p b d 0 PCI_CLASS_DEVICE = 0xffff ∧ (0 : Nat) = 0) :=
      fun hx => hc hx.1
    rw [if_neg hne] at h
    by_cases hh : pci_conf_read16 p b d 0 PCI_HEADER_TYPE &&& 0x80 ≠ 0
    · exact ⟨hh, hc⟩
    · have hcond : ¬((0 : Nat) ≠ 0 ∨ pci_conf_read16 p b d 0 PCI_HEADER_TYPE &&& 0x80 ≠ 0) :=
        fun hor => hor.elim (fun c => c rfl) hh
      rw [if_neg hcond] at h
      omega

/-- Not advancing past function 0 means the device is absent or
single-function. -/
theorem pci_nextf_skip_at0 (p : PciBus) (b d : Nat) (h : ¬ pci_nextf p b d 0 < 8) :
    pci_conf_read16 p b d 0 PCI_HEADER_TYPE &&& 0x80 = 0 ∨
    pci_conf_read16 p b d 0 PCI_CLASS_DEVICE = 0xffff := by
  by_cases hc : pci_conf_read16 p b d 0 PCI_CLASS_DEVICE = 0xffff
  · exact Or.inr hc
  · by_cases hh : pci_conf_read16 p b d 0 PCI_HEADER_TYPE &&& 0x80 = 0
    · exact Or.inl hh
    · exfalso
      apply h
      unfold pci_nextf
      dsimp only []
      have hne : ¬(pci_conf_read16 p b d 0 PCI_CLASS_DEVICE = 0xffff ∧ (0 : Nat) = 0) :=
        fun hx => hc hx.1
      rw [if_neg hne, if_pos (Or.inr hh)]
      omega

/-- The claim-side enumeration depends only on configuration headers at or
after the current position. -/
theorem pci_first_match_congr :
    ∀ (fuel : Nat) (p q : PciBus) (i b d f : Nat), f < 8 → d < 0x20 →
      (∀ b' d' f', lexIdx (b, d, f) ≤ lexIdx (b', d', f') → q b' d' f' = p b' d' f') →
      pci_first_match fuel q i b d f = pci_first_match fuel p i b d f := by
  intro fuel
  induction fuel with
  | zero =>
      intro p q i b d f _ _ _
      rfl
  | succ fuel ih =>
      intro p q i b d f hf hd hagree
      have hqp : q b d f = p b d f := hagree b d f (le_refl _)
      have hnf : pci_nextf q b d f = pci_nextf p b d f := by
        unfold pci_nextf
        dsimp only []
        rw [read16_class q b d f, read16_header q b d f, read16_class p b d f,
          read16_header p b d f, hqp]
      unfold pci_first_match
      dsimp only []
      rw [hqp, hnf]
      split
      · rfl
      · split
        · rfl
        · split
          · apply ih p q i b d (pci_nextf p b d f) (by assumption) hd
            intro b' d' f' h'
            apply hagree
            simp only [lexIdx_def] at h' ⊢
            rcases pci_nextf_cases p b d f with h | h <;> omega
          · split
            · apply ih p q i b (d + 1) 0 (by omega) (by assumption)
              intro b' d' f' h'
              apply hagree
              simp only [lexIdx_def] at h' ⊢
              omega
            · apply ih p q i (b + 1) 0 0 (by omega) (by omega)
              intro b' d' f' h'
              apply hagree
              simp only [lexIdx_def] at h' ⊢
              omega

/-- Any location the enumeration returns lies at or after the start
position and within the component bounds. -/
theorem pci_first_match_ge :
    ∀ (fuel : Nat) (p : PciBus) (i b d f : Nat) (loc : Nat × Nat × Nat), f < 8 → d < 0x20 →
      pci_first_match fuel p i b d f = some loc →
      lexIdx (b, d, f) ≤ lexIdx loc ∧ loc.2.2 < 8 ∧ loc.2.1 < 0x20 ∧ b ≤ loc.1 ∧
        loc.1 < 0x100 := by
  intro fuel
  induction fuel with
  | zero =>
      intro p i b d f loc _ _ h
      exact absurd h (by simp [pci_first_match])
  | succ fuel ih =>
      intro p i b d f loc hf hd h
      unfold pci_first_match at h
      dsimp only [] at h
      split at h
      · simp at h
      · rename_i hb
        split at h
        · cases h
          exact ⟨le_refl _, hf, hd, le_refl _, by omega⟩
        · split at h
          · have hr := ih p i b d (pci_nextf p b d f) loc (by assumption) hd h
            refine ⟨?_, hr.2.1, hr.2.2.1, hr.2.2.2.1, hr.2.2.2.2⟩
            refine le_trans ?_ hr.1
            simp only [lexIdx_def]
            rcases pci_nextf_cases p b d f with hc | hc <;> omega
          · split at h
            · have hr := ih p i b (d + 1) 0 loc (by omega) (by assumption) h
              refine ⟨?_, hr.2.1, hr.2.2.1, hr.2.2.2.1, hr.2.2.2.2⟩
              refine le_trans ?_ hr.1
              simp only [lexIdx_def]
              omega
            · have hr := ih p i (b + 1) 0 0 loc (by omega) (by omega) h
              refine ⟨?_, hr.2.1, hr.2.2.1, by omega, hr.2.2.2.2⟩
              refine le_trans ?_ hr.1
              simp only [lexIdx_def]
              omega

/-- The enumeration only returns locations whose original header satisfies
the acceptance predicate. -/
theorem pci_first_match_accept :
    ∀ (fuel : Nat) (p : PciBus) (i b d f : Nat) (loc : Nat × Nat × Nat),
      pci_first_match fuel p i b d f = some loc →
      fnAccept (p loc.1 loc.2.1 loc.2.2) i = true := by
  intro fuel
  induction fuel with
  | zero =>
      intro p i b d f loc h
      exact absurd h (by simp [pci_first_match])
  | succ fuel ih =>
      intro p i b d f loc h
      unfold pci_first_match at h
      dsimp only [] at h
      split at h
      · simp at h
      · split at h
        · cases h
          assumption
        · split at h
          · exact ih p i b d (pci_nextf p b d f) loc h
          · split at h
            · exact ih p i b (d + 1) 0 loc h
            · exact ih p i (b + 1) 0 0 loc h

/-- A nonzero function index in the result means the scan stepped past
function 0 of that device, which requires a present multi-function
function 0. -/
theorem pci_first_match_multifn :
    ∀ (fuel : Nat) (p : PciBus) (i b d f : Nat) (loc : Nat × Nat × Nat),
      (f ≠ 0 → pci_conf_read16 p b d 0 PCI_HEADER_TYPE &&& 0x80 ≠ 0 ∧
               pci_conf_read16 p b d 0 PCI_CLASS_DEVICE ≠ 0xffff) →
      pci_first_match fuel p i b d f = some loc → loc.2.2 ≠ 0 →
      pci_conf_read16 p loc.1 loc.2.1 0 PCI_HEADER_TYPE &&& 0x80 ≠ 0 ∧
      pci_conf_read16 p loc.1 loc.2.1 0 PCI_CLASS_DEVICE ≠ 0xffff := by
  intro fuel
  induction fuel with
  | zero =>
      intro p i b d f loc _ h
      exact absurd h (by simp [pci_first_match])
  | succ fuel ih =>
      intro p i b d f loc hinv h hne
      unfold pci_first_match at h
      dsimp only [] at h
      split at h
      · simp at h
      · split at h
        · cases h
          exact hinv hne
        · split at h
          · refine ih p i b d (pci_nextf p b d f) loc ?_ h hne
            intro _
            by_cases hf0 : f = 0
            · subst hf0
              exact pci_nextf_lt8_at0 p b d (by assumption)
            · exact hinv hf0
          · split at h
            · refine ih p i b (d + 1) 0 loc ?_ h hne
              intro h0
              exact absurd rfl h0
            · refine ih p i (b + 1) 0 0 loc ?_ h hne
              intro h0
              exact absurd rfl h0

/-- First-match minimality: any in-bounds triple at or after the start
position, strictly before the returned location, whose header satisfies
the acceptance predicate, must be a nonzero function of a device whose
function 0 is absent or single-function (the only triples the stepping
rule skips). -/
theorem pci_first_match_min :
    ∀ (fuel : Nat) (p : PciBus) (i b d f : Nat) (loc : Nat × Nat × Nat), f < 8 → d < 0x20 →
      pci_first_match fuel p i b d f = some loc →
      ∀ b' d' f', d' < 0x20 → f' < 8 →
        lexIdx (b, d, f) ≤ lexIdx (b', d', f') → lexIdx (b', d', f') < lexIdx loc →
        fnAccept (p b' d' f') i = true →
        f' ≠ 0 ∧ (pci_conf_read16 p b' d' 0 PCI_HEADER_TYPE &&& 0x80 = 0 ∨
                  pci_conf_read16 p b' d' 0 PCI_CLASS_DEVICE = 0xffff) := by
  intro fuel
  induction fuel with
  | zero =>
      intro p i b d f loc _ _ h
      exact absurd h (by simp [pci_first_match])
  | succ fuel ih =>
      intro p i b d f loc hf hd h b' d' f' hd' hf' hge hlt hacc'
      unfold pci_first_match at h
      dsimp only [] at h
      split at h
      · simp at h
      · rename_i hb
        split at h
        · rename_i hacc
          cases h
          exfalso
          simp only [lexIdx_def] at hge hlt
          omega
        · rename_i hacc
          split at h
          · rename_i hstep
            have hn1 : pci_nextf p b d f = f + 1 := by
              rcases pci_nextf_cases p b d f with hc | hc
              · exact hc
              · omega
            by_cases hcur : lexIdx (b, d, (pci_nextf p b d f)) ≤ lexIdx (b', d', f')
            · exact ih p i b d (pci_nextf p b d f) loc hstep hd h b' d' f' hd' hf' hcur
                hlt hacc'
            · exfalso
              rw [hn1] at hcur
              simp only [lexIdx_def] at hge hcur
              have hbb : b' = b ∧ d' = d ∧ f' = f := by omega
              obtain ⟨rfl, rfl, rfl⟩ := hbb
              exact hacc hacc'
          · rename_i hstep
            split at h
            · rename_i hdstep
              by_cases hcur : lexIdx (b, (d + 1), 0) ≤ lexIdx (b', d', f')
              · exact ih p i b (d + 1) 0 loc (by omega) hdstep h b' d' f' hd' hf' hcur
                  hlt hacc'
              · simp only [lexIdx_def] at hge hcur
                have hbb : b' = b ∧ d' = d ∧ f ≤ f' := by omega
                obtain ⟨rfl, rfl, hff⟩ := hbb
                by_cases hfe : f' = f
                · subst hfe
                  exact absurd hacc' hacc
                · have hf0 : f = 0 := by
                    by_cases hz : f = 0
                    · exact hz
                    · exfalso
                      rw [pci_nextf_ne0 p b' d' f hz] at hstep
                      omega
                  subst hf0
                  exact ⟨by omega, pci_nextf_skip_at0 p b' d' hstep⟩
            · rename_i hdstep
              by_cases hcur : lexIdx ((b + 1), 0, 0) ≤ lexIdx (b', d', f')
              · exact ih p i (b + 1) 0 0 loc (by omega) (by omega) h b' d' f' hd' hf' hcur
                  hlt hacc'
              · simp only [lexIdx_def] at hge hcur
                have hbb : b' = b ∧ d' = d ∧ f ≤ f' := by omega
                obtain ⟨rfl, rfl, hff⟩ := hbb
                by_cases hfe : f' = f
                · subst hfe
                  exact absurd hacc' hacc
                · have hf0 : f = 0 := by
                    by_cases hz : f = 0
                    · exact hz
                    · exfalso
                      rw [pci_nextf_ne0 p b' d' f hz] at hstep
                      omega
                  subst hf0
                  exact ⟨by omega, pci_nextf_skip_at0 p b' d' hstep⟩

/-- The scan's match result refines the claim-side enumeration: it is the
first accepted location, paired with that function's original BAR value
and IRQ line. -/
theorem pci_scan_first_match :
    ∀ (fuel : Nat) (p : PciBus) (i b d f : Nat), i ≤ 5 → f < 8 → d < 0x20 →
      (pci_scan fuel p i b d f).2 =
        (pci_first_match fuel p i b d f).map
          (fun loc => (loc.1, loc.2.1, loc.2.2, fnBar (p loc.1 loc.2.1 loc.2.2) i,
                       fnIrq (p loc.1 loc.2.1 loc.2.2))) := by
  intro fuel
  induction fuel with
  | zero =>
      intro p i b d f _ _ _
      rfl
  | succ fuel ih =>
      intro p i b d f hi hf hd
      unfold pci_scan pci_first_match
      dsimp only []
      split
      · rfl
      · rcases hex : pci_examine p b d f i with ⟨p1, nf, r⟩
        have hr : r = if fnAccept (p b d f) i then
            some (fnBar (p b d f) i, fnIrq (p b d f)) else none := by
          have hx := pci_examine_accept p b d f i hi
          rw [hex] at hx
          exact hx
        have hnf : nf = pci_nextf p b d f := by
          have hx := pci_examine_nextf p b d f i
          rw [hex] at hx
          exact hx
        have hp1 : ∀ b2 d2 f2, ¬(b2 = b ∧ d2 = d ∧ f2 = f) → p1 b2 d2 f2 = p b2 d2 f2 := by
          intro b2 d2 f2 hne
          have hx := pci_examine_ne p b d f i b2 d2 f2 hne
          rw [hex] at hx
          exact hx
        dsimp only []
        subst hnf
        by_cases hacc : fnAccept (p b d f) i = true
        · have hr2 : r = some (fnBar (p b d f) i, fnIrq (p b d f)) := by
            rw [hr, if_pos hacc]
          subst hr2
          rw [if_pos hacc]
          rfl
        · have hr2 : r = none := by
            rw [hr, if_neg hacc]
          subst hr2
          rw [if_neg hacc]
          dsimp only []
          split
          · rename_i hlt
            rw [ih p1 i b d (pci_nextf p b d f) hi hlt hd]
            have hn1 : pci_nextf p b d f = f + 1 := by
              rcases pci_nextf_cases p b d f with hc | hc
              · exact hc
              · omega
            have hfm : pci_first_match fuel p1 i b d (pci_nextf p b d f) =
                pci_first_match fuel p i b d (pci_nextf p b d f) := by
              apply pci_first_match_congr fuel p p1 i b d (pci_nextf p b d f) hlt hd
              intro b2 d2 f2 h2
              apply hp1
              rintro ⟨rfl, rfl, rfl⟩
              rw [hn1] at h2
              simp only [lexIdx_def] at h2
              omega
            rw [hfm]
            cases hfm2 : pci_first_match fuel p i b d (pci_nextf p b d f) with
            | none => rfl
            | some loc =>
                have hge := pci_first_match_ge fuel p i b d (pci_nextf p b d f) loc hlt hd
                  hfm2
                have hne2 : ¬(loc.1 = b ∧ loc.2.1 = d ∧ loc.2.2 = f) := by
                  rintro ⟨h1, h2, h3⟩
                  have hge1 := hge.1
                  rw [hn1] at hge1
                  simp only [lexIdx, h1, h2, h3] at hge1
                  omega
                dsimp only [Option.map]
                rw [hp1 loc.1 loc.2.1 loc.2.2 hne2]
          · rename_i hlt
            split
            · rename_i hdlt
              rw [ih p1 i b (d + 1) 0 hi (by omega) hdlt]
              have hfm : pci_first_match fuel p1 i b (d + 1) 0 =
                  pci_first_match fuel p i b (d + 1) 0 := by
                apply pci_first_match_congr fuel p p1 i b (d + 1) 0 (by omega) hdlt
                intro b2 d2 f2 h2
                apply hp1
                rintro ⟨rfl, rfl, rfl⟩
                simp only [lexIdx_def] at h2
                omega
              rw [hfm]
              cases hfm2 : pci_first_match fuel p i b (d + 1) 0 with
              | none => rfl
              | some loc =>
                  have hge := pci_first_match_ge fuel p i b (d + 1) 0 loc (by omega) hdlt
                    hfm2
                  have hne2 : ¬(loc.1 = b ∧ loc.2.1 = d ∧ loc.2.2 = f) := by
                    rintro ⟨h1, h2, h3⟩
                    have hge1 := hge.1
                    simp only [lexIdx, h1, h2, h3] at hge1
                    omega
                  dsimp only [Option.map]
                  rw [hp1 loc.1 loc.2.1 loc.2.2 hne2]
            · rename_i hdlt
              rw [ih p1 i (b + 1) 0 0 hi (by omega) (by omega)]
              have hfm : pci_first_match fuel p1 i (b + 1) 0 0 =
                  pci_first_match fuel p i (b + 1) 0 0 := by
                apply pci_first_match_congr fuel p p1 i (b + 1) 0 0 (by omega) (by omega)
                intro b2 d2 f2 h2
                apply hp1
                rintro ⟨rfl, rfl, rfl⟩
                simp only [lexIdx_def] at h2
                omega
              rw [hfm]
              cases hfm2 : pci_first_match fuel p i (b + 1) 0 0 with
              | none => rfl
              | some loc =>
                  have hge := pci_first_match_ge fuel p i (b + 1) 0 0 loc (by omega)
                    (by omega) hfm2
                  have hne2 : ¬(loc.1 = b ∧ loc.2.1 = d ∧ loc.2.2 = f) := by
                    rintro ⟨h1, h2, h3⟩
                    have hge1 := hge.1
                    simp only [lexIdx, h1, h2, h3] at hge1
                    omega
                  dsimp only [Option.map]
                  rw [hp1 loc.1 loc.2.1 loc.2.2 hne2]

/-- C7: for every simulated bus table, skip-first-bus flag and (in-range)
target BAR index, pci_uart_config selects exactly the first function in
ascending (bus, device, function) order — starting at bus 1 when the flag
is set, walking functions 1..7 only when function 0's header indicates
multi-function — whose class code is serial (0x0700/0x0702/0x0780), whose
target BAR is I/O-space and whose sizing read encodes an 8-byte region; on
acceptance it records the location, BAR value and index, io_base, and the
IRQ resolved from the interrupt pin/line (0 when no pin is declared); any
earlier in-bounds triple satisfying the acceptance test is a nonzero
function of a device whose function 0 is absent or single-function, i.e.
one the walking rule never visits. -/
theorem claim_C7_first_match (p : PciBus) (u : Ns16550) (skip : Bool) (i : Nat)
    (hi : i ≤ 5) :
    ((pci_scan pci_scan_fuel p i (if skip then 1 else 0) 0 0).2 =
      (pci_first_match pci_scan_fuel p i (if skip then 1 else 0) 0 0).map
        (fun loc => (loc.1, loc.2.1, loc.2.2, fnBar (p loc.1 loc.2.1 loc.2.2) i,
                     fnIrq (p loc.1 loc.2.1 loc.2.2)))) ∧
    (∀ b d f, pci_first_match pci_scan_fuel p i (if skip then 1 else 0) 0 0 =
        some (b, d, f) →
      fnAccept (p b d f) i = true ∧
      (if skip then 1 else 0) ≤ b ∧
      (f ≠ 0 → pci_conf_read16 p b d 0 PCI_HEADER_TYPE &&& 0x80 ≠ 0) ∧
      pci_uart_config u skip i p =
        (0, { u with
                ps_bdf := (b, d, f)
                bar := fnBar (p b d f) i
                bar_idx := i % 256
                io_base := fnBar (p b d f) i &&& 0xfffffffe
                irq := (fnIrq (p b d f) : Int) },
          (pci_scan pci_scan_fuel p i (if skip then 1 else 0) 0 0).1) ∧
      (∀ b' d' f', d' < 0x20 → f' < 8 → (if skip then 1 else 0) ≤ b' →
        lexIdx (b', d', f') < lexIdx (b, d, f) →
        fnAccept (p b' d' f') i = true →
        f' ≠ 0 ∧ (pci_conf_read16 p b' d' 0 PCI_HEADER_TYPE &&& 0x80 = 0 ∨
                  pci_conf_read16 p b' d' 0 PCI_CLASS_DEVICE = 0xffff))) := by
  constructor
  · exact pci_scan_first_match pci_scan_fuel p i (if skip then 1 else 0) 0 0 hi
      (by omega) (by omega)
  · intro b d f hfm
    have hacc := pci_first_match_accept pci_scan_fuel p i (if skip then 1 else 0) 0 0
      (b, d, f) hfm
    have hge := pci_first_match_ge pci_scan_fuel p i (if skip then 1 else 0) 0 0
      (b, d, f) (by omega) (by omega) hfm
    have hmulti := pci_first_match_multifn pci_scan_fuel p i (if skip then 1 else 0) 0 0
      (b, d, f) (fun h0 => absurd rfl h0) hfm
    refine ⟨hacc, hge.2.2.2.1, fun hfne => (hmulti hfne).1, ?_, ?_⟩
    · have hscan := pci_scan_first_match pci_scan_fuel p i (if skip then 1 else 0) 0 0 hi
        (by omega) (by omega)
      rw [hfm] at hscan
      unfold pci_uart_config
      dsimp only []
      rcases hsc : pci_scan pci_scan_fuel p i (if skip then 1 else 0) 0 0 with ⟨p', r⟩
      rw [hsc] at hscan
      dsimp only [Option.map] at hscan
      rw [hscan]
    · intro b' d' f' hd' hf' hb' hlt hacc'
      apply pci_first_match_min pci_scan_fuel p i (if skip then 1 else 0) 0 0 (b, d, f)
        (by omega) (by omega) hfm b' d' f' hd' hf' ?_ hlt hacc'
      simp only [lexIdx_def]
      omega

/-- Witness for C7: on the example bus with skip set and target BAR index
1, the enumeration selects function (1, 0, 1), which the acceptance
predicate indeed accepts, at or past the starting bus 1. -/
theorem claim_C7_witness :
    (1 : Nat) ≤ 5 ∧ fnAccept (exBus 1 0 1) 1 = true ∧ (1 : Nat) ≤ 1 :=
  ⟨by decide,
   ((claim_C7_first_match exBus exUart true 1 (by decide)).2 1 0 1 (by decide)).1,
   ((claim_C7_first_match exBus exUart true 1 (by decide)).2 1 0 1 (by decide)).2.1⟩
